import Mathlib

/-!  Formal model of the agent-interaction core of the helipad agent-based
simulation framework (src/helipad/agent.py): bilateral trade under budget
constraints, monetary helpers, reproduction, death, and the typed
relationship graph between agents.

Conventions of the shallow embedding:
* Good quantities, prices and weights are modelled as rationals; the Python
  floats are the implementation of the spec's real-valued quantities.
* Python dicts (an agent's `goods`, `currentDemand`, `currentShortage`, and
  `edges`) are modelled as insertion-ordered association lists.  Dict reads
  are total with default 0 / []: the claims only exercise keys that are
  present (a missing key would raise KeyError in Python before any state
  change, which no claim observes).
* Raised exceptions are modelled with `Except`; errors raised in `trade`
  carry the two agent states at the point of the raise, since the source
  mutates shortage accounting before the raising line runs.
* Hook dispatch (`model.doHooks`) is modelled by explicit function
  parameters returning `Option` results: `none` models "no registered
  callback returned a value", `some v` models a dispatch result `v`.
-/

namespace Helipad

/-- Label used by the source for the buy configuration error. -/
def opBuy : String := "Buy"

/-- Label used by the source for the pay configuration error. -/
def opPay : String := "Pay"

/-- Label used by the source for the balance configuration error. -/
def opBalance : String := "Balance checking"

/-- Exceptions raised by src/helipad/agent.py: RuntimeError when a monetary
operation runs with no monetary good configured (lines 77, 87, 192);
NameError when `price` is read but line 41 never assigned it (amt2 == 0);
ZeroDivisionError when line 47/51 divides by a zero price; ValueError for a
bad edge `direction` or a `partner`/`reassign` call with an unconnected
agent (lines 223, 226, 242). -/
inductive AgentError where
  | moneyRequired (op : String)
  | nameError
  | zeroDivisionError
  | valueError
  deriving DecidableEq

/-- Ledger: a Python dict from good identifier to quantity, as an
insertion-ordered association list. -/
abbrev Ledger := List (String × ℚ)

/-- Edge collections of one agent: a Python dict from kind tag to the list
of edges (edge arena indices) of that kind, insertion-ordered. -/
abbrev EdgeMap := List (String × List Nat)

/-- Dict read `d[k]` on a ledger; total with default 0 (the claims only read
keys that are present, see the module comment). -/
def lget (l : Ledger) (k : String) : ℚ :=
  ((l.find? fun p => p.1 == k).map Prod.snd).getD 0

/-- Dict write `d[k] = v` on a ledger: overwrites the entry when the key is
present, appends a new entry otherwise (Python dict insertion order). -/
def lset (l : Ledger) (k : String) (v : ℚ) : Ledger :=
  if (l.find? fun p => p.1 == k).isSome then l.map fun p => if p.1 == k then (p.1, v) else p
  else l ++ [(k, v)]

/-- State of one agent: the fields of `baseAgent` (src/helipad/agent.py
lines 13-28).  The `model` back reference is carried separately (the parts
of the model that the claims need live in `World` below), and `utils` is
never touched by the operations under study. -/
structure AgentObj where
  breed : String
  primitive : String
  id : Int
  age : Nat
  dead : Bool
  goods : Ledger
  currentDemand : Ledger
  currentShortage : Ledger
  edges : EdgeMap
  deriving DecidableEq

/-- Error payload of the economic operations: the exception together with
the caller and partner states at the moment of the raise. -/
abbrev TradeErr := AgentError × AgentObj × AgentObj

/-- Budget clamp on good 1 (lines 44-51 of `baseAgent.trade`).  Takes the
caller and partner, the good-1 key, the requested `amt1` and `amt2`, and the
`price` computed on line 41 (only read when `amt2 ≠ 0`, where it equals
`amt1 / amt2`).  Returns the updated states and the amounts after this pass,
or the ZeroDivisionError raised by `amt1 / price` when the price is zero
(raised after the shortage entry was already updated, as in the source). -/
def tradeClamp1 (s p : AgentObj) (good1 : String) (amt1 amt2 price : ℚ) :
    Except TradeErr (AgentObj × AgentObj × ℚ × ℚ) :=
  if amt1 > lget s.goods good1 then
    let sh1 := lset s.currentShortage good1 (lget s.currentShortage good1 + (amt1 - lget s.goods good1))
    let s1 := { s with currentShortage := sh1 }
    let a1 := lget s.goods good1
    if amt2 ≠ 0 then
      if price = 0 then .error (.zeroDivisionError, s1, p)
      else .ok (s1, p, a1, a1 / price)
    else .ok (s1, p, a1, amt2)
  else if -amt1 > lget p.goods good1 then
    let sh1 := lset p.currentShortage good1 (lget p.currentShortage good1 + (-amt1 - lget p.goods good1))
    let p1 := { p with currentShortage := sh1 }
    let a1 := -(lget p.goods good1)
    if amt2 ≠ 0 then
      if price = 0 then .error (.zeroDivisionError, s, p1)
      else .ok (s, p1, a1, a1 / price)
    else .ok (s, p1, a1, amt2)
  else .ok (s, p, amt1, amt2)

/-- Budget clamp on good 2 (lines 52-59 of `baseAgent.trade`).  `b1`, `b2`
are the amounts after the good-1 pass, `amt2` is the original second
argument (which decides whether line 41 assigned `price`): when the clamp
fires with `amt2 = 0` the source raises NameError on line 55/59, after the
shortage update on line 53/57 already ran.  Note lines 53 and 57 use the
current `amt1` (`b1`), not the good-2 amount, in the shortage update. -/
def tradeClamp2 (s1 p1 : AgentObj) (good2 : String) (b1 b2 amt2 price : ℚ) :
    Except TradeErr (AgentObj × AgentObj × ℚ × ℚ) :=
  if b2 > lget p1.goods good2 then
    let sh2 := lset p1.currentShortage good2 (lget p1.currentShortage good2 + (b1 - lget p1.goods good2))
    let p2 := { p1 with currentShortage := sh2 }
    let b2n := lget p1.goods good2
    if amt2 = 0 then .error (.nameError, s1, p2)
    else .ok (s1, p2, price * b2n, b2n)
  else if -b2 > lget s1.goods good2 then
    let sh2 := lset s1.currentShortage good2 (lget s1.currentShortage good2 + (-b1 - lget s1.goods good2))
    let s2 := { s1 with currentShortage := sh2 }
    let b2n := -(lget s1.goods good2)
    if amt2 = 0 then .error (.nameError, s2, p1)
    else .ok (s2, p1, price * b2n, b2n)
  else .ok (s1, p1, b1, b2)

/-- Transfer application and demand recording (lines 61-70 of
`baseAgent.trade`): the four sequential ledger updates, then the demand
updates for whichever party is the net receiver of each good. -/
def tradeApply (s p : AgentObj) (good1 good2 : String) (f1 f2 : ℚ) :
    AgentObj × AgentObj :=
  let s := { s with goods := lset s.goods good1 (lget s.goods good1 - f1) }
  let p := { p with goods := lset p.goods good1 (lget p.goods good1 + f1) }
  let s := { s with goods := lset s.goods good2 (lget s.goods good2 + f2) }
  let p := { p with goods := lset p.goods good2 (lget p.goods good2 - f2) }
  let sp :=
    if f1 > 0 then
      (s, { p with currentDemand := lset p.currentDemand good1 (lget p.currentDemand good1 + f1) })
    else
      ({ s with currentDemand := lset s.currentDemand good1 (lget s.currentDemand good1 - f1) }, p)
  let s := sp.1
  let p := sp.2
  if f2 > 0 then
    ({ s with currentDemand := lset s.currentDemand good2 (lget s.currentDemand good2 + f2) }, p)
  else
    (s, { p with currentDemand := lset p.currentDemand good2 (lget p.currentDemand good2 - f2) })

/-- Shallow embedding of `baseAgent.trade` (src/helipad/agent.py lines
38-72): give `amt1` of `good1`, get `amt2` of `good2`, with the two budget
clamp passes holding the line-41 price constant.  `preTradeResult` models
the value returned by the `preTrade` hook dispatch on line 39; the source
discards it.  On success the final caller state, partner state and the two
applied amounts (as passed to the `postTrade` hook) are returned. -/
def trade (s p : AgentObj) (good1 : String) (amt1 : ℚ) (good2 : String) (amt2 : ℚ)
    (preTradeResult : Option ℚ) : Except TradeErr (AgentObj × AgentObj × ℚ × ℚ) :=
  let price := amt1 / amt2
  match tradeClamp1 s p good1 amt1 amt2 price with
  | .error e => .error e
  | .ok (s1, p1, b1, b2) =>
    match tradeClamp2 s1 p1 good2 b1 b2 amt2 price with
    | .error e => .error e
    | .ok (s2, p2, f1, f2) =>
      let sp := tradeApply s2 p2 good1 good2 f1 f2
      .ok (sp.1, sp.2, f1, f2)

/-- Balance of an agent before the `checkBalance` hook: the holding of the
monetary good `m`, then the hook may override it (lines 193-195); `cb`
models the `checkBalance` dispatch, receiving the agent and the raw
balance. -/
def balanceVal (a : AgentObj) (m : String) (cb : AgentObj → ℚ → Option ℚ) : ℚ :=
  (cb a (lget a.goods m)).getD (lget a.goods m)

/-- Shallow embedding of the `balance` property (lines 190-197): raises
when no monetary good is configured, otherwise the (possibly
hook-overridden) holding of the monetary good. -/
def balance (a : AgentObj) (moneyGood : Option String) (cb : AgentObj → ℚ → Option ℚ) :
    Except AgentError ℚ :=
  match moneyGood with
  | none => .error (.moneyRequired opBalance)
  | some m => .ok (balanceVal a m cb)

/-- Shallow embedding of `baseAgent.buy` (lines 76-83): requires a monetary
good; the `buy` hook (`bh`, receiving caller, partner, good, quantity and
price) may override the pair `(q, p)`; delegates to `trade` with
`amt1 = p*q` of money against `amt2 = q` of `good`; returns the post-trade
minus pre-trade holding of `good` as the quantity actually bought. -/
def buy (s p : AgentObj) (moneyGood : Option String)
    (bh : AgentObj → AgentObj → String → ℚ → ℚ → Option (ℚ × ℚ))
    (good : String) (q pr : ℚ) (preTradeResult : Option ℚ) :
    Except TradeErr (AgentObj × AgentObj × ℚ) :=
  match moneyGood with
  | none => .error (.moneyRequired opBuy, s, p)
  | some m =>
    let qp := (bh s p good q pr).getD (q, pr)
    let before := lget s.goods good
    match trade s p m (qp.2 * qp.1) good qp.1 preTradeResult with
    | .error e => .error e
    | .ok (s1, p1, _, _) => .ok (s1, p1, lget s1.goods good - before)

/-- Shallow embedding of `baseAgent.pay` (lines 86-98): requires a monetary
good; clamps the amount against the payer's and then the recipient's
balance; the `pay` hook (`ph`, receiving payer, recipient and the clamped
amount) may override the amount; moves the monetary good only when the
final amount is nonzero; returns the applied amount. -/
def pay (s r : AgentObj) (moneyGood : Option String)
    (cb : AgentObj → ℚ → Option ℚ) (ph : AgentObj → AgentObj → ℚ → Option ℚ)
    (amount : ℚ) : Except TradeErr (AgentObj × AgentObj × ℚ) :=
  match moneyGood with
  | none => .error (.moneyRequired opPay, s, r)
  | some m =>
    let a1 := if amount > balanceVal s m cb then balanceVal s m cb else amount
    let a2 := if -a1 > balanceVal r m cb then -(balanceVal r m cb) else a1
    let amt := (ph s r a2).getD a2
    if amt ≠ 0 then
      .ok ({ s with goods := lset s.goods m (lget s.goods m - amt) },
           { r with goods := lset r.goods m (lget r.goods m + amt) }, amt)
    else .ok (s, r, amt)

/-- Default agent record, used only to make projections out of `Except`
results total. -/
def dfltAgent : AgentObj :=
  { breed := "", primitive := "", id := 0, age := 0, dead := false,
    goods := [], currentDemand := [], currentShortage := [], edges := [] }

/-- Result projection: the two applied amounts of a successful trade. -/
def appliedAmts (res : Except TradeErr (AgentObj × AgentObj × ℚ × ℚ)) : Option (ℚ × ℚ) :=
  res.toOption.map fun r => r.2.2

/-- Result projection: a successful trade's outcome, defaulted on error. -/
def tradeOutD (res : Except TradeErr (AgentObj × AgentObj × ℚ × ℚ)) : AgentObj × AgentObj × ℚ × ℚ :=
  res.toOption.getD (dfltAgent, dfltAgent, 0, 0)

/-- Result projection: quantity returned by a successful buy. -/
def buyQty (res : Except TradeErr (AgentObj × AgentObj × ℚ)) : Option ℚ :=
  res.toOption.map fun r => r.2.2

/-- Result projection: the caller's gain in good `g` relative to the
pre-state `s`. -/
def buyGain (g : String) (s : AgentObj) (res : Except TradeErr (AgentObj × AgentObj × ℚ)) : Option ℚ :=
  res.toOption.map fun r => lget r.1.goods g - lget s.goods g

/-- Result projection: amount applied by a successful pay. -/
def payQty (res : Except TradeErr (AgentObj × AgentObj × ℚ)) : Option ℚ :=
  res.toOption.map fun r => r.2.2

/-- Result projection: the partner's shortage entry for `g` after a
successful trade. -/
def partnerShortage (g : String) (res : Except TradeErr (AgentObj × AgentObj × ℚ × ℚ)) : Option ℚ :=
  res.toOption.map fun r => lget r.2.1.currentShortage g

/-- Result projection: the sum of the partner's shortage entries after a
successful trade. -/
def partnerShortageSum (res : Except TradeErr (AgentObj × AgentObj × ℚ × ℚ)) : Option ℚ :=
  res.toOption.map fun r => (r.2.1.currentShortage.map Prod.snd).sum

theorem find?_map_set (l : Ledger) (k : String) (v : ℚ) :
    (l.map fun p => if p.1 == k then (p.1, v) else p).find? (fun p => p.1 == k)
      = (l.find? fun p => p.1 == k).map fun p => (p.1, v) := by
  rw [List.find?_map]
  have hpred : ((fun p : String × ℚ => p.1 == k) ∘ fun p : String × ℚ =>
      if p.1 == k then (p.1, v) else p) = fun p : String × ℚ => p.1 == k := by
    funext q
    by_cases h : (q.1 == k) = true
    · simp [Function.comp, h]
    · simp [Function.comp, h]
  rw [hpred]
  cases hf : l.find? (fun p : String × ℚ => p.1 == k) with
  | none => rfl
  | some pr =>
    have hp := List.find?_some hf
    have hpr : (if (pr.1 == k) = true then (pr.1, v) else pr) = (pr.1, v) := by rw [if_pos hp]
    simp only [Option.map_some']
    rw [hpr]

theorem find?_map_set_ne (l : Ledger) (k k' : String) (v : ℚ) (hne : k' ≠ k) :
    (l.map fun p => if p.1 == k then (p.1, v) else p).find? (fun p => p.1 == k')
      = l.find? fun p => p.1 == k' := by
  rw [List.find?_map]
  have hpred : ((fun p : String × ℚ => p.1 == k') ∘ fun p : String × ℚ =>
      if p.1 == k then (p.1, v) else p) = fun p : String × ℚ => p.1 == k' := by
    funext q
    by_cases h : (q.1 == k) = true
    · simp [Function.comp, h]
    · simp [Function.comp, h]
  rw [hpred]
  cases hf : l.find? (fun p : String × ℚ => p.1 == k') with
  | none => rfl
  | some pr =>
    have hp := List.find?_some hf
    have hk : ¬ ((pr.1 == k) = true) := by
      rw [beq_iff_eq] at hp ⊢
      rw [hp]
      exact hne
    simp only [Option.map_some']
    rw [if_neg hk]

theorem lget_lset_self (l : Ledger) (k : String) (v : ℚ) : lget (lset l k v) k = v := by
  unfold lget lset
  by_cases hf : ((l.find? fun p => p.1 == k)).isSome
  · rw [if_pos hf, find?_map_set]
    obtain ⟨pr, hpr⟩ := Option.isSome_iff_exists.mp hf
    rw [hpr]
    rfl
  · rw [if_neg hf]
    rw [Option.not_isSome_iff_eq_none] at hf
    rw [List.find?_append, hf]
    simp

theorem lget_lset_ne (l : Ledger) (k k' : String) (v : ℚ) (hne : k' ≠ k) :
    lget (lset l k v) k' = lget l k' := by
  unfold lget lset
  by_cases hf : ((l.find? fun p => p.1 == k)).isSome
  · rw [if_pos hf, find?_map_set_ne l k k' v hne]
  · rw [if_neg hf]
    rw [List.find?_append]
    have hkv : ¬ (((k, v).1 == k') = true) := by simp [Ne.symm hne]
    cases hf2 : l.find? (fun p : String × ℚ => p.1 == k') with
    | none => simp [hkv]
    | some pr => simp

theorem tradeClamp1_ok_goods (s p s1 p1 : AgentObj) (good1 : String) (amt1 amt2 price b1 b2 : ℚ)
    (h : tradeClamp1 s p good1 amt1 amt2 price = .ok (s1, p1, b1, b2)) :
    s1.goods = s.goods ∧ p1.goods = p.goods := by
  unfold tradeClamp1 at h
  split_ifs at h
  all_goals simp at h
  all_goals exact ⟨by rw [← h.1], by rw [← h.2.1]⟩

theorem tradeClamp2_ok_goods (s1 p1 s2 p2 : AgentObj) (good2 : String) (b1 b2 amt2 price f1 f2 : ℚ)
    (h : tradeClamp2 s1 p1 good2 b1 b2 amt2 price = .ok (s2, p2, f1, f2)) :
    s2.goods = s1.goods ∧ p2.goods = p1.goods := by
  unfold tradeClamp2 at h
  split_ifs at h
  all_goals simp at h
  all_goals exact ⟨by rw [← h.1], by rw [← h.2.1]⟩

theorem tradeApply_goods (s p : AgentObj) (good1 good2 : String) (f1 f2 : ℚ) :
    (tradeApply s p good1 good2 f1 f2).1.goods
        = lset (lset s.goods good1 (lget s.goods good1 - f1)) good2
            (lget (lset s.goods good1 (lget s.goods good1 - f1)) good2 + f2) ∧
      (tradeApply s p good1 good2 f1 f2).2.goods
        = lset (lset p.goods good1 (lget p.goods good1 + f1)) good2
            (lget (lset p.goods good1 (lget p.goods good1 + f1)) good2 - f2) := by
  unfold tradeApply
  split_ifs <;> simp

theorem trade_ok_goods (s p : AgentObj) (good1 : String) (amt1 : ℚ) (good2 : String) (amt2 : ℚ)
    (pre : Option ℚ) (s' p' : AgentObj) (f1 f2 : ℚ)
    (h : trade s p good1 amt1 good2 amt2 pre = .ok (s', p', f1, f2)) :
    s'.goods
        = lset (lset s.goods good1 (lget s.goods good1 - f1)) good2
            (lget (lset s.goods good1 (lget s.goods good1 - f1)) good2 + f2) ∧
      p'.goods
        = lset (lset p.goods good1 (lget p.goods good1 + f1)) good2
            (lget (lset p.goods good1 (lget p.goods good1 + f1)) good2 - f2) := by
  unfold trade at h
  simp only [] at h
  cases hc1 : tradeClamp1 s p good1 amt1 amt2 (amt1 / amt2) with
  | error e => rw [hc1] at h; exact absurd h (by simp)
  | ok r1 =>
    obtain ⟨s1, p1, b1, b2⟩ := r1
    rw [hc1] at h
    simp only [] at h
    cases hc2 : tradeClamp2 s1 p1 good2 b1 b2 amt2 (amt1 / amt2) with
    | error e => rw [hc2] at h; exact absurd h (by simp)
    | ok r2 =>
      obtain ⟨s2, p2, g1v, g2v⟩ := r2
      rw [hc2] at h
      simp only [] at h
      simp only [Except.ok.injEq, Prod.mk.injEq] at h
      obtain ⟨hs', hp', hf1, hf2⟩ := h
      obtain ⟨hg1, hg2⟩ := tradeClamp1_ok_goods s p s1 p1 good1 amt1 amt2 (amt1 / amt2) b1 b2 hc1
      obtain ⟨hg3, hg4⟩ := tradeClamp2_ok_goods s1 p1 s2 p2 good2 b1 b2 amt2 (amt1 / amt2) g1v g2v hc2
      obtain ⟨ha1, ha2⟩ := tradeApply_goods s2 p2 good1 good2 g1v g2v
      subst hf1 hf2
      constructor
      · rw [← hs', ha1, hg3, hg1]
      · rw [← hp', ha2, hg4, hg2]

/-- Claim C1 (trade conservation): for every completed `trade`, the quantity
of good 1 subtracted from the caller's ledger equals the quantity of good 1
added to the partner's ledger, and the quantity of good 2 added to the
caller equals the quantity subtracted from the partner — exactly, including
when budget clamping rescaled the amounts (the theorem quantifies over all
completed outcomes, clamped or not). -/
theorem trade_conservation (s p : AgentObj) (good1 : String) (amt1 : ℚ) (good2 : String)
    (amt2 : ℚ) (pre : Option ℚ) (s' p' : AgentObj) (f1 f2 : ℚ)
    (h : trade s p good1 amt1 good2 amt2 pre = .ok (s', p', f1, f2)) :
    lget s.goods good1 - lget s'.goods good1 = lget p'.goods good1 - lget p.goods good1 ∧
      lget s'.goods good2 - lget s.goods good2 = lget p.goods good2 - lget p'.goods good2 := by
  obtain ⟨hs', hp'⟩ := trade_ok_goods s p good1 amt1 good2 amt2 pre s' p' f1 f2 h
  by_cases hg : good1 = good2
  · subst hg
    rw [hs', hp']
    rw [lget_lset_self, lget_lset_self, lget_lset_self, lget_lset_self]
    constructor <;> ring
  · rw [hs', hp']
    rw [lget_lset_ne _ _ _ _ hg, lget_lset_self, lget_lset_self, lget_lset_self,
      lget_lset_ne _ _ _ _ hg, lget_lset_self, lget_lset_ne _ _ _ _ (Ne.symm hg),
      lget_lset_ne _ _ _ _ (Ne.symm hg)]
    constructor <;> ring

/-- Good identifier used in concrete scenarios. -/
def gMoney : String := "money"

/-- Good identifier used in concrete scenarios. -/
def gGrain : String := "grain"

/-- Good identifier used in concrete scenarios. -/
def gA : String := "g1"

/-- Good identifier used in concrete scenarios. -/
def gB : String := "g2"

/-- Breed tag used in concrete scenarios. -/
def brDflt : String := "b"

/-- Concrete agent with the given goods and zeroed accumulators, as produced
by the `baseAgent` constructor for a two-good model. -/
def mkAgent (g z : Ledger) : AgentObj :=
  { breed := brDflt, primitive := brDflt, id := 0, age := 0, dead := false,
    goods := g, currentDemand := z, currentShortage := z, edges := [] }

/-- Zeroed accumulator ledger over the money/grain goods. -/
def zeroMG : Ledger := [(gMoney, 0), (gGrain, 0)]

/-- Zeroed accumulator ledger over the g1/g2 goods. -/
def zeroAB : Ledger := [(gA, 0), (gB, 0)]

/-- Agent A of the spec's shortfall scenario: 30 money, no grain. -/
def exA : AgentObj := mkAgent [(gMoney, 30), (gGrain, 0)] zeroMG

/-- Agent B of the spec's shortfall scenario: no money, 10 grain. -/
def exB : AgentObj := mkAgent [(gMoney, 0), (gGrain, 10)] zeroMG

/-- Caller of the shortage-decrease scenario: 10 of g1, none of g2. -/
def c2S : AgentObj := mkAgent [(gA, 10), (gB, 0)] zeroAB

/-- Partner of the shortage-decrease scenario: none of g1, 5 of g2. -/
def c2P : AgentObj := mkAgent [(gA, 0), (gB, 5)] zeroAB

/-- Caller of the conservation witness scenario. -/
def c1S : AgentObj := mkAgent [(gA, 10), (gB, 1)] zeroAB

/-- Partner of the conservation witness scenario. -/
def c1P : AgentObj := mkAgent [(gA, 0), (gB, 8)] zeroAB

/-- Caller of the single-clamp witness scenario: 30 of g1. -/
def c4S : AgentObj := mkAgent [(gA, 30), (gB, 0)] zeroAB

/-- Partner of the single-clamp witness scenario: 10 of g2. -/
def c4P : AgentObj := mkAgent [(gA, 0), (gB, 10)] zeroAB

/-- Caller of the hook-sensitivity scenario: 100 money. -/
def c9S : AgentObj := mkAgent [(gMoney, 100), (gGrain, 0)] zeroMG

/-- Partner of the hook-sensitivity scenario: 10 grain. -/
def c9P : AgentObj := mkAgent [(gMoney, 0), (gGrain, 10)] zeroMG

/-- Payer of the pay witness scenario: 10 money. -/
def c6S : AgentObj := mkAgent [(gMoney, 10)] [(gMoney, 0)]

/-- Recipient of the pay witness scenario: no money. -/
def c6R : AgentObj := mkAgent [(gMoney, 0)] [(gMoney, 0)]

/-- Buy-hook dispatch with no registered callback. -/
def noBuyHook : AgentObj → AgentObj → String → ℚ → ℚ → Option (ℚ × ℚ) := fun _ _ _ _ _ => none

/-- Buy-hook dispatch overriding the quantity/price pair to (2, 1). -/
def ovrBuyHook : AgentObj → AgentObj → String → ℚ → ℚ → Option (ℚ × ℚ) := fun _ _ _ _ _ => some (2, 1)

/-- Pay-hook dispatch with no registered callback. -/
def noPayHook : AgentObj → AgentObj → ℚ → Option ℚ := fun _ _ _ => none

/-- Pay-hook dispatch overriding the amount to 7. -/
def ovrPayHook : AgentObj → AgentObj → ℚ → Option ℚ := fun _ _ _ => some 7

/-- Balance-hook dispatch with no registered callback. -/
def noCB : AgentObj → ℚ → Option ℚ := fun _ _ => none

/-- Witness for the conservation theorem: a concrete completed trade
satisfies both conservation equations. -/
theorem trade_conservation_witness :
    lget c1S.goods gA - lget (tradeOutD (trade c1S c1P gA 2 gB 4 none)).1.goods gA
        = lget (tradeOutD (trade c1S c1P gA 2 gB 4 none)).2.1.goods gA - lget c1P.goods gA ∧
      lget (tradeOutD (trade c1S c1P gA 2 gB 4 none)).1.goods gB - lget c1S.goods gB
        = lget c1P.goods gB - lget (tradeOutD (trade c1S c1P gA 2 gB 4 none)).2.1.goods gB := by
  have h : trade c1S c1P gA 2 gB 4 none
      = .ok ((tradeOutD (trade c1S c1P gA 2 gB 4 none)).1,
          (tradeOutD (trade c1S c1P gA 2 gB 4 none)).2.1,
          (tradeOutD (trade c1S c1P gA 2 gB 4 none)).2.2.1,
          (tradeOutD (trade c1S c1P gA 2 gB 4 none)).2.2.2) := by
    norm_num +decide [trade, tradeClamp1, tradeClamp2, tradeApply, tradeOutD, lget, lset,
      c1S, c1P, mkAgent, zeroAB, gA, gB, brDflt, dfltAgent, Except.toOption]
  exact trade_conservation c1S c1P gA 2 gB 4 none _ _ _ _ h

/-- Claim C2 evaluated at a failing input: the source records the good-2
shortfall on line 53 as `amt1 - partner.goods[good2]` (using the good-1
amount), so a trade of 1 unit of g1 against 10 units of g2 with the partner
holding only 5 of g2 ADDS -4 to the partner's `currentShortage[g2]` (the
true shortfall is 10 - 5 = 5): the entry drops from 0 to -4 and the sum of
the partner's shortage entries becomes negative, contradicting the claimed
monotonicity and non-negativity. -/
theorem trade_shortage_decreases :
    partnerShortage gB (trade c2S c2P gA 1 gB 10 none) = some (-4) ∧
      lget c2P.currentShortage gB = 0 ∧
      partnerShortageSum (trade c2S c2P gA 1 gB 10 none) = some (-4) := by
  refine ⟨?_, ?_, ?_⟩ <;>
    norm_num +decide [trade, tradeClamp1, tradeClamp2, tradeApply, partnerShortage,
      partnerShortageSum, lget, lset, c2S, c2P, mkAgent, zeroAB, gA, gB, brDflt, Except.toOption]

theorem buy_ok_qty (s p s1 p1 : AgentObj) (moneyGood : Option String)
    (bh : AgentObj → AgentObj → String → ℚ → ℚ → Option (ℚ × ℚ))
    (good : String) (q pr : ℚ) (pre : Option ℚ) (ret : ℚ)
    (h : buy s p moneyGood bh good q pr pre = .ok (s1, p1, ret)) :
    ret = lget s1.goods good - lget s.goods good := by
  unfold buy at h
  cases moneyGood with
  | none => exact absurd h (by simp)
  | some m =>
    simp only [] at h
    split at h
    · exact absurd h (by simp)
    · simp only [Except.ok.injEq, Prod.mk.injEq] at h
      obtain ⟨h1, -, h3⟩ := h
      rw [← h3, h1]

/-- Claim C3: `buy` returns the actual quantity of `good` the caller
received, the post-trade minus pre-trade holding; and in the spec's
shortfall scenario (caller money:30, partner grain:10, buy 10 grain at
price 5) the money leg clamps to 30, the grain leg is recomputed to 6 at
the held price 5, the caller ends with money 0 / grain 6, the partner with
money 30 / grain 4, 20 is added to the caller's money shortage, and 6 is
returned. -/
theorem buy_returns_actual :
    (∀ (s p : AgentObj) (m : String)
      (bh : AgentObj → AgentObj → String → ℚ → ℚ → Option (ℚ × ℚ))
      (good : String) (q pr : ℚ) (pre : Option ℚ),
      buyQty (buy s p (some m) bh good q pr pre) = buyGain good s (buy s p (some m) bh good q pr pre)) ∧
    ((buy exA exB (some gMoney) noBuyHook gGrain 10 5 none).toOption.map fun r =>
      (r.2.2, lget r.1.goods gMoney, lget r.1.goods gGrain, lget r.2.1.goods gMoney,
       lget r.2.1.goods gGrain, lget r.1.currentShortage gMoney))
      = some (6, 0, 6, 30, 4, 20) := by
  constructor
  · intro s p m bh good q pr pre
    cases h : buy s p (some m) bh good q pr pre with
    | error e => rfl
    | ok r =>
      obtain ⟨s1, p1, ret⟩ := r
      have hq := buy_ok_qty s p s1 p1 (some m) bh good q pr pre ret h
      simp [buyQty, buyGain, Except.toOption, hq]
  · norm_num +decide [buy, trade, tradeClamp1, tradeClamp2, tradeApply, lget, lset, exA, exB,
      mkAgent, zeroMG, noBuyHook, gMoney, gGrain, brDflt, Except.toOption]

/-- Claim C9: the result of `trade` does not depend on the value returned
by the preTrade hook dispatch (the source discards it on line 39), while
`buy` and `pay` do apply their hook overrides: overriding the buy hook's
quantity/price pair changes the returned quantity, and overriding the pay
hook's amount changes the applied amount. -/
theorem preTrade_hook_noninterference :
    (∀ (s p : AgentObj) (good1 : String) (amt1 : ℚ) (good2 : String) (amt2 : ℚ)
      (r1 r2 : Option ℚ),
      trade s p good1 amt1 good2 amt2 r1 = trade s p good1 amt1 good2 amt2 r2) ∧
    buyQty (buy c9S c9P (some gMoney) ovrBuyHook gGrain 1 1 none)
      ≠ buyQty (buy c9S c9P (some gMoney) noBuyHook gGrain 1 1 none) ∧
    payQty (pay c9S c9P (some gMoney) noCB ovrPayHook 5)
      ≠ payQty (pay c9S c9P (some gMoney) noCB noPayHook 5) := by
  refine ⟨fun _ _ _ _ _ _ _ _ => rfl, ?_, ?_⟩
  · norm_num +decide [buy, trade, tradeClamp1, tradeClamp2, tradeApply, buyQty, lget, lset,
      c9S, c9P, mkAgent, zeroMG, ovrBuyHook, noBuyHook, gMoney, gGrain, brDflt, Except.toOption]
  · norm_num +decide [pay, payQty, balanceVal, lget, lset, c9S, c9P, mkAgent, zeroMG,
      ovrPayHook, noPayHook, noCB, gMoney, gGrain, brDflt, Except.toOption]

/-- Claim C4 (price preservation under a single-leg clamp): when `amt2 ≠ 0`
and `amt1 ≠ 0` (so the line-41 implied unit price `amt1 / amt2` is nonzero
and the source's recomputation does not raise), the good-1 budget clamp
fires, and the good-2 clamp does not fire on the rescaled second leg, the
applied amounts are the clamped good-1 amount and that amount divided by
the price computed before clamping. -/
theorem trade_price_preservation (s p : AgentObj) (good1 : String) (amt1 : ℚ) (good2 : String)
    (amt2 : ℚ) (pre : Option ℚ)
    (h2 : amt2 ≠ 0) (h1 : amt1 ≠ 0)
    (hfire : amt1 > lget s.goods good1 ∨ -amt1 > lget p.goods good1)
    (hn1 : ¬ ((if amt1 > lget s.goods good1 then lget s.goods good1 else -(lget p.goods good1))
        / (amt1 / amt2) > lget p.goods good2))
    (hn2 : ¬ (-((if amt1 > lget s.goods good1 then lget s.goods good1 else -(lget p.goods good1))
        / (amt1 / amt2)) > lget s.goods good2)) :
    appliedAmts (trade s p good1 amt1 good2 amt2 pre)
      = some (if amt1 > lget s.goods good1 then lget s.goods good1 else -(lget p.goods good1),
          (if amt1 > lget s.goods good1 then lget s.goods good1 else -(lget p.goods good1))
            / (amt1 / amt2)) := by
  have hpr : amt1 / amt2 ≠ 0 := div_ne_zero h1 h2
  unfold trade
  simp only []
  by_cases hc : amt1 > lget s.goods good1
  · rw [if_pos hc] at hn1 hn2 ⊢
    unfold tradeClamp1
    rw [if_pos hc, if_pos h2, if_neg hpr]
    simp only []
    unfold tradeClamp2
    simp only []
    rw [if_neg hn1, if_neg hn2]
    simp only [appliedAmts, Except.toOption, Option.map]
  · have hd : -amt1 > lget p.goods good1 := hfire.resolve_left hc
    rw [if_neg hc] at hn1 hn2 ⊢
    unfold tradeClamp1
    rw [if_neg hc, if_pos hd, if_pos h2, if_neg hpr]
    simp only []
    unfold tradeClamp2
    simp only []
    rw [if_neg hn1, if_neg hn2]
    simp only [appliedAmts, Except.toOption, Option.map]

/-- Witness for the price-preservation theorem: trading 50 of g1 for 10 of
g2 with only 30 of g1 on hand clamps the first leg to 30 and rescales the
second leg to 30 / 5 = 6. -/
theorem trade_price_preservation_witness :
    appliedAmts (trade c4S c4P gA 50 gB 10 none)
      = some (if (50 : ℚ) > lget c4S.goods gA then lget c4S.goods gA else -(lget c4P.goods gA),
          (if (50 : ℚ) > lget c4S.goods gA then lget c4S.goods gA else -(lget c4P.goods gA))
            / (50 / 10)) :=
  trade_price_preservation c4S c4P gA 50 gB 10 none (by norm_num) (by norm_num)
    (Or.inl (by norm_num +decide [lget, c4S, mkAgent, zeroAB, gA, gB, brDflt]))
    (by norm_num +decide [lget, c4S, c4P, mkAgent, zeroAB, gA, gB, brDflt])
    (by norm_num +decide [lget, c4S, c4P, mkAgent, zeroAB, gA, gB, brDflt])

/-- Amount formula in the claim's wording (for comparison with the source's
two sequential clamps in `pay`): clamped down to the payer's balance when
non-negative, clamped up to minus the recipient's balance when negative. -/
def paySpecClamp (s r : AgentObj) (m : String) (cb : AgentObj → ℚ → Option ℚ) (amount : ℚ) : ℚ :=
  if 0 ≤ amount then min amount (balanceVal s m cb) else max amount (-(balanceVal r m cb))

/-- Claim C6: with non-negative balances (the spec's default ledger regime),
`pay` clamps the amount as the claim describes before any hook runs, the
pay hook may then replace it, the monetary transfer is applied exactly when
the resulting amount is nonzero, and that amount is returned. -/
theorem pay_clamps_hook_transfer (s r : AgentObj) (m : String)
    (cb : AgentObj → ℚ → Option ℚ) (ph : AgentObj → AgentObj → ℚ → Option ℚ)
    (amount amt : ℚ)
    (hs : 0 ≤ balanceVal s m cb) (hr : 0 ≤ balanceVal r m cb)
    (hamt : amt = (ph s r (paySpecClamp s r m cb amount)).getD (paySpecClamp s r m cb amount)) :
    pay s r (some m) cb ph amount =
      if amt ≠ 0 then
        .ok ({ s with goods := lset s.goods m (lget s.goods m - amt) },
            { r with goods := lset r.goods m (lget r.goods m + amt) }, amt)
      else .ok (s, r, amt) := by
  have key : (if -(if amount > balanceVal s m cb then balanceVal s m cb else amount)
          > balanceVal r m cb
        then -(balanceVal r m cb)
        else if amount > balanceVal s m cb then balanceVal s m cb else amount)
      = paySpecClamp s r m cb amount := by
    unfold paySpecClamp
    rcases le_or_lt 0 amount with hpos | hneg
    · rw [if_pos hpos]
      rcases lt_or_le (balanceVal s m cb) amount with hgt | hle
      · rw [if_pos hgt, if_neg (not_lt.mpr (by linarith)), min_eq_right (le_of_lt hgt)]
      · rw [if_neg (not_lt.mpr hle), if_neg (not_lt.mpr (by linarith)), min_eq_left hle]
    · rw [if_neg (not_le.mpr hneg), if_neg (not_lt.mpr (le_trans (le_of_lt hneg) hs))]
      rcases lt_or_le amount (-(balanceVal r m cb)) with hlt | hge
      · rw [if_pos (by linarith), max_eq_right (le_of_lt hlt)]
      · rw [if_neg (not_lt.mpr (by linarith)), max_eq_left hge]
  unfold pay
  simp only []
  rw [key, ← hamt]

/-- Witness for the pay theorem: paying 4 from a balance of 10 with no
hooks applies the transfer of 4. -/
theorem pay_clamps_hook_transfer_witness :
    pay c6S c6R (some gMoney) noCB noPayHook 4 =
      if (4 : ℚ) ≠ 0 then
        .ok ({ c6S with goods := lset c6S.goods gMoney (lget c6S.goods gMoney - 4) },
            { c6R with goods := lset c6R.goods gMoney (lget c6R.goods gMoney + 4) }, 4)
      else .ok (c6S, c6R, 4) :=
  pay_clamps_hook_transfer c6S c6R gMoney noCB noPayHook 4 4
    (by norm_num +decide [balanceVal, noCB, lget, c6S, mkAgent, gMoney, brDflt])
    (by norm_num +decide [balanceVal, noCB, lget, c6R, mkAgent, gMoney, brDflt])
    (by norm_num +decide [paySpecClamp, balanceVal, noCB, noPayHook, lget, c6S, c6R,
      mkAgent, gMoney, brDflt])

theorem tradeClamp1_isOk_spec (s p : AgentObj) (good1 : String) (amt1 amt2 price : ℚ)
    (h : amt2 ≠ 0 → price ≠ 0) :
    ∃ s1 p1 b1 b2, tradeClamp1 s p good1 amt1 amt2 price = .ok (s1, p1, b1, b2) ∧
      s1.goods = s.goods ∧ p1.goods = p.goods ∧ (amt2 = 0 → b2 = amt2) := by
  unfold tradeClamp1
  split_ifs with hA hB hC hD hE hF
  · exact absurd hC (h hB)
  · exact ⟨_, _, _, _, rfl, rfl, rfl, fun hz => absurd hz hB⟩
  · exact ⟨_, _, _, _, rfl, rfl, rfl, fun _ => rfl⟩
  · exact absurd hF (h hE)
  · exact ⟨_, _, _, _, rfl, rfl, rfl, fun hz => absurd hz hE⟩
  · exact ⟨_, _, _, _, rfl, rfl, rfl, fun _ => rfl⟩
  · exact ⟨_, _, _, _, rfl, rfl, rfl, fun _ => rfl⟩

theorem tradeClamp2_isOk (s1 p1 : AgentObj) (good2 : String) (b1 b2 amt2 price : ℚ)
    (h : amt2 ≠ 0 ∨ (¬ b2 > lget p1.goods good2 ∧ ¬ -b2 > lget s1.goods good2)) :
    (tradeClamp2 s1 p1 good2 b1 b2 amt2 price).isOk = true := by
  unfold tradeClamp2
  split_ifs with hA hB hC hD
  · rcases h with h | h
    · exact absurd hB h
    · exact absurd hA h.1
  · rfl
  · rcases h with h | h
    · exact absurd hD h
    · exact absurd hC h.2
  · rfl
  · rfl

theorem trade_ok_of (s p : AgentObj) (good1 : String) (amt1 : ℚ) (good2 : String) (amt2 : ℚ)
    (pre : Option ℚ)
    (hA : amt2 ≠ 0 → amt1 / amt2 ≠ 0)
    (hB : amt2 = 0 → 0 ≤ lget s.goods good2 ∧ 0 ≤ lget p.goods good2) :
    (trade s p good1 amt1 good2 amt2 pre).isOk = true := by
  obtain ⟨s1, p1, b1, b2, he, hsg, hpg, hb2⟩ :=
    tradeClamp1_isOk_spec s p good1 amt1 amt2 (amt1 / amt2) hA
  unfold trade
  simp only []
  rw [he]
  simp only []
  have h2 : amt2 ≠ 0 ∨ (¬ b2 > lget p1.goods good2 ∧ ¬ -b2 > lget s1.goods good2) := by
    by_cases hz : amt2 = 0
    · right
      rw [hb2 hz, hz, hpg, hsg]
      obtain ⟨hs0, hp0⟩ := hB hz
      refine ⟨not_lt.mpr hp0, ?_⟩
      rw [neg_zero]
      exact not_lt.mpr hs0
    · exact Or.inl hz
  have hok := tradeClamp2_isOk s1 p1 good2 b1 b2 amt2 (amt1 / amt2) h2
  cases hc2 : tradeClamp2 s1 p1 good2 b1 b2 amt2 (amt1 / amt2) with
  | error e =>
    rw [hc2] at hok
    exact absurd hok (by simp [Except.isOk, Except.toBool])
  | ok r =>
    obtain ⟨s2, p2, f1, f2⟩ := r
    rfl

/-- Claim C8: `buy`, `pay` and the `balance` property each raise the
configuration error when no monetary good is configured, and none of them
raises for a budget shortfall: with the traded good non-negative on both
sides and the (possibly hook-overridden) price nonzero (or quantity zero),
`buy` completes regardless of the money balance, `pay` always completes,
and `balance` always completes when a monetary good is configured. -/
theorem monetary_config_errors :
    (∀ (s p : AgentObj) (bh : AgentObj → AgentObj → String → ℚ → ℚ → Option (ℚ × ℚ))
      (good : String) (q pr : ℚ) (pre : Option ℚ),
      buy s p none bh good q pr pre = .error (.moneyRequired opBuy, s, p)) ∧
    (∀ (s r : AgentObj) (cb : AgentObj → ℚ → Option ℚ) (ph : AgentObj → AgentObj → ℚ → Option ℚ)
      (a : ℚ), pay s r none cb ph a = .error (.moneyRequired opPay, s, r)) ∧
    (∀ (a : AgentObj) (cb : AgentObj → ℚ → Option ℚ),
      balance a none cb = .error (.moneyRequired opBalance)) ∧
    (∀ (s p : AgentObj) (m : String)
      (bh : AgentObj → AgentObj → String → ℚ → ℚ → Option (ℚ × ℚ))
      (good : String) (q pr : ℚ) (pre : Option ℚ),
      0 ≤ lget s.goods good → 0 ≤ lget p.goods good →
      (((bh s p good q pr).getD (q, pr)).2 ≠ 0 ∨ ((bh s p good q pr).getD (q, pr)).1 = 0) →
      (buy s p (some m) bh good q pr pre).isOk = true) ∧
    (∀ (s r : AgentObj) (m : String) (cb : AgentObj → ℚ → Option ℚ)
      (ph : AgentObj → AgentObj → ℚ → Option ℚ) (a : ℚ),
      (pay s r (some m) cb ph a).isOk = true) ∧
    (∀ (a : AgentObj) (m : String) (cb : AgentObj → ℚ → Option ℚ),
      (balance a (some m) cb).isOk = true) := by
  refine ⟨fun _ _ _ _ _ _ _ => rfl, fun _ _ _ _ _ => rfl, fun _ _ => rfl, ?_, ?_, fun _ _ _ => rfl⟩
  · intro s p m bh good q pr pre hs hp hd
    have ht : (trade s p m (((bh s p good q pr).getD (q, pr)).2 * ((bh s p good q pr).getD (q, pr)).1)
        good (((bh s p good q pr).getD (q, pr)).1) pre).isOk = true := by
      apply trade_ok_of
      · intro hq0
        rcases hd with hd | hd
        · rw [mul_div_cancel_right₀ _ hq0]
          exact hd
        · exact absurd hd hq0
      · intro _
        exact ⟨hs, hp⟩
    unfold buy
    simp only []
    cases htr : trade s p m
        (((bh s p good q pr).getD (q, pr)).2 * ((bh s p good q pr).getD (q, pr)).1)
        good (((bh s p good q pr).getD (q, pr)).1) pre with
    | error e =>
      rw [htr] at ht
      exact absurd ht (by simp [Except.isOk, Except.toBool])
    | ok r =>
      obtain ⟨s1, p1, f1, f2⟩ := r
      rfl
  · intro s r m cb ph a
    unfold pay
    simp only []
    split_ifs <;> rfl

/-- Witness for the monetary configuration-error theorem: concrete runs of
all six conjuncts, with the no-raise buy case exercising an actual money
shortfall (30 on hand against a 50-money leg). -/
theorem monetary_config_errors_witness :
    buy exA exB none noBuyHook gGrain 1 1 none = .error (.moneyRequired opBuy, exA, exB) ∧
      pay exA exB none noCB noPayHook 4 = .error (.moneyRequired opPay, exA, exB) ∧
      balance exA none noCB = .error (.moneyRequired opBalance) ∧
      (buy exA exB (some gMoney) noBuyHook gGrain 10 5 none).isOk = true ∧
      (pay exA exB (some gMoney) noCB noPayHook 4).isOk = true ∧
      (balance exA (some gMoney) noCB).isOk = true :=
  ⟨monetary_config_errors.1 exA exB noBuyHook gGrain 1 1 none,
    monetary_config_errors.2.1 exA exB noCB noPayHook 4,
    monetary_config_errors.2.2.1 exA noCB,
    monetary_config_errors.2.2.2.1 exA exB gMoney noBuyHook gGrain 10 5 none
      (by norm_num +decide [lget, exA, mkAgent, zeroMG, gMoney, gGrain, brDflt])
      (by norm_num +decide [lget, exB, mkAgent, zeroMG, gMoney, gGrain, brDflt])
      (Or.inl (by norm_num +decide [noBuyHook])),
    monetary_config_errors.2.2.2.2.1 exA exB gMoney noCB noPayHook 4,
    monetary_config_errors.2.2.2.2.2 exA gMoney noCB⟩

/-- Direction argument of the Edge constructor (line 207): a Python value
that is an int, a bool, or an agent (arena index); `Option Direction`
models the default `None`. -/
inductive Direction where
  | int (i : Int)
  | bool (b : Bool)
  | ag (a : Nat)
  deriving DecidableEq

/-- Edge object (src/helipad/agent.py lines 206-248): `vertices` holds the
two agent arena indices in constructor order; `startpoint`/`endpoint` are
`none` exactly when the Python attributes are set to None (the undirected
normalization on lines 227-228). -/
structure EdgeObj where
  active : Bool
  kind : String
  vertices : Nat × Nat
  weight : ℚ
  directed : Bool
  startpoint : Option Nat
  endpoint : Option Nat
  deriving DecidableEq

/-- World state around the agents.  Modelled from the spec where the model
class is outside the sources under study: the per-category population
registry (`model.agents`, §2/§6), the parameter store (`model.param`, §6)
and the goods/endowment configuration (`model.goods`, §6) follow the spec's
contracts.  Agents and edges live in arenas indexed by creation order,
which plays the role of Python object identity. -/
structure World where
  agentObjs : Nat → AgentObj
  nAgents : Nat
  edgeObjs : Nat → EdgeObj
  nEdges : Nat
  registry : String → List Nat
  params : String → Int
  goodsCfg : List (String × Option (String → ℚ))

/-- Functional update of one agent in the arena. -/
def updAgent (w : World) (i : Nat) (f : AgentObj → AgentObj) : World :=
  { w with agentObjs := fun j => if j = i then f (w.agentObjs j) else w.agentObjs j }

/-- Dict lookup in an agent's edge collections (`kind in agent.edges` plus
`agent.edges[kind]`). -/
def emLookup (em : EdgeMap) (k : String) : Option (List Nat) :=
  (em.find? fun p => p.1 == k).map Prod.snd

/-- Lines 229-231 of the Edge constructor: create the kind's list if absent,
then append the edge. -/
def emAdd (em : EdgeMap) (k : String) (e : Nat) : EdgeMap :=
  if (em.find? fun p => p.1 == k).isSome
  then em.map fun p => if p.1 == k then (p.1, p.2 ++ [e]) else p
  else em ++ [(k, [e])]

/-- Line 235: `agent.edges[self.kind].remove(self)`, removal of the first
occurrence (under the claims' hypotheses the edge is present, matching the
precondition of Python's `list.remove`). -/
def emRemove (em : EdgeMap) (k : String) (e : Nat) : EdgeMap :=
  em.map fun p => if p.1 == k then (p.1, p.2.erase e) else p

/-- Property `alledges` (lines 175-179): concatenation of all kind lists in
dict insertion order. -/
def emAll (em : EdgeMap) : List Nat := (em.map Prod.snd).flatten

/-- Kind-list of an agent, defaulted to [] when the kind is absent. -/
def kindList (w : World) (a : Nat) (k : String) : List Nat :=
  (emLookup (w.agentObjs a).edges k).getD []

/-- All edges held by an agent in the world. -/
def heldEdges (w : World) (a : Nat) : List Nat := emAll (w.agentObjs a).edges

/-- Direction analysis of the Edge constructor (lines 212-228): derives
the `(directed, startpoint, endpoint)` triple, with the undirected case
normalized to None endpoints; ValueError when an agent direction is not
one of the vertices. -/
def edgeDirSpec (a1 a2 : Nat) (dir : Option Direction) :
    Except AgentError (Bool × Option Nat × Option Nat) :=
  match dir with
  | none => .ok (false, none, none)
  | some (.int i) =>
    if i = 0 then .ok (false, none, none)
    else if i > 0 then .ok (true, some a1, some a2)
    else .ok (true, some a2, some a1)
  | some (.bool b) => if b then .ok (true, some a1, some a2) else .ok (false, none, none)
  | some (.ag d) =>
    if d ≠ a1 ∧ d ≠ a2 then .error .valueError
    else .ok (true, some (if d = a2 then a1 else a2), some d)

/-- Shallow embedding of the Edge constructor (lines 207-232): build the
edge object from the direction analysis and append the new edge (arena
index `w.nEdges`) to each vertex's kind collection in turn. -/
def edgeInit (w : World) (a1 a2 : Nat) (kind : String) (dir : Option Direction) (weight : ℚ) :
    Except AgentError (World × Nat) :=
  match edgeDirSpec a1 a2 dir with
  | .error err => .error err
  | .ok bse =>
    let eo : EdgeObj := { active := true, kind := kind, vertices := (a1, a2), weight := weight,
                          directed := bse.1, startpoint := bse.2.1, endpoint := bse.2.2 }
    let eid := w.nEdges
    let w1 := { w with edgeObjs := fun j => if j = eid then eo else w.edgeObjs j,
                       nEdges := w.nEdges + 1 }
    let w2 := updAgent w1 a1 (fun ag => { ag with edges := emAdd ag.edges kind eid })
    let w3 := updAgent w2 a2 (fun ag => { ag with edges := emAdd ag.edges kind eid })
    .ok (w3, eid)

/-- Shallow embedding of `baseAgent.newEdge` (lines 141-142). -/
def newEdge (w : World) (selfA partner : Nat) (kind : String) (dir : Option Direction)
    (weight : ℚ) : Except AgentError (World × Nat) :=
  edgeInit w selfA partner kind dir weight

/-- Shallow embedding of `Edge.cut` (lines 234-237): remove the edge from
each vertex's kind collection, then deactivate it. -/
def cut (w : World) (e : Nat) : World :=
  let eo := w.edgeObjs e
  let w1 := updAgent w eo.vertices.1 (fun ag => { ag with edges := emRemove ag.edges eo.kind e })
  let w2 := updAgent w1 eo.vertices.2 (fun ag => { ag with edges := emRemove ag.edges eo.kind e })
  { w2 with edgeObjs := fun j => if j = e then { eo with active := false } else w2.edgeObjs j }

/-- Prefix of the per-category live-count parameter names
(`'agents_'+self.primitive`, lines 129 and 136). -/
def paramAgents : String := "agents_"

/-- Shallow embedding of `baseAgent.die` (lines 134-139): remove the agent
from its category's registry, decrement the `agents_<primitive>` live-count
parameter, cut every held edge (iterating over the `alledges` snapshot),
and set the dead flag. -/
def die (w : World) (a : Nat) : World :=
  let prim := (w.agentObjs a).primitive
  let w1 := { w with registry := fun k => if k = prim then (w.registry k).erase a else w.registry k }
  let w2 := { w1 with params := fun k => if k = paramAgents ++ prim then w1.params k - 1 else w1.params k }
  let w3 := (heldEdges w2 a).foldl cut w2
  updAgent w3 a fun ag => { ag with dead := true }

/-- Endowment initialization of the `baseAgent` constructor (lines 13-28):
absent endowments give 0, callables are applied to the breed (constants are
constant functions); demand and shortage start at zero for every good; the
edge map starts empty. -/
def agentInit (cfg : List (String × Option (String → ℚ))) (breed : String) (prim : String)
    (idv : Int) : AgentObj :=
  { breed := breed, primitive := prim, id := idv, age := 0, dead := false,
    goods := cfg.map fun ge => (ge.1, match ge.2 with | none => 0 | some f => f breed),
    currentDemand := cfg.map fun ge => (ge.1, 0),
    currentShortage := cfg.map fun ge => (ge.1, 0),
    edges := [] }

/-- Registry key scanned by `reproduce` (line 102): the source hardcodes
the 'agent' category there. -/
def sAgent : String := "agent"

/-- Kind tag of lineage edges (line 127). -/
def sLineage : String := "lineage"

/-- Shallow embedding of `baseAgent.reproduce(inherit=[], mutate={})`
(lines 100-132); claim C5 fixes both arguments to empty, so the attribute
copy and mutation loops are no-ops and the final `newagent.id = maxid+1`
restores nothing.  Modelled from the spec where the sources are silent: the
`primitive` tag of the default `Agent` class is "agent" (assigned by the
model's `addPrimitive` registration, which is outside the sources).  Note
that line 102 scans the hardcoded 'agent' registry for the maximum id while
lines 128-129 register the child under `self.primitive`; the lineage edge
is created with direction True (parent to child), which never raises, so
the error branch of `edgeInit` below is unreachable. -/
def reproduce (w : World) (parent : Nat) : World × Nat :=
  let maxid := (w.registry sAgent).foldl
    (fun m i => if (w.agentObjs i).id > m then (w.agentObjs i).id else m) 0
  let childIdx := w.nAgents
  let child := agentInit w.goodsCfg (w.agentObjs parent).breed sAgent (maxid + 1)
  let w1 := { w with agentObjs := fun j => if j = childIdx then child else w.agentObjs j,
                     nAgents := w.nAgents + 1 }
  match edgeInit w1 parent childIdx sLineage (some (.bool true)) 1 with
  | .error _ => (w1, childIdx)
  | .ok pr =>
    let w2 := pr.1
    let prim := (w2.agentObjs parent).primitive
    let w3 := { w2 with registry := fun k => if k = prim then w2.registry k ++ [childIdx] else w2.registry k }
    let w4 := { w3 with params := fun k => if k = paramAgents ++ prim then w3.params k + 1 else w3.params k }
    (w4, childIdx)

/-- Shallow embedding of `baseAgent.outbound` (lines 144-152): the agent's
edges of the given kind (all kinds when `none`), filtered to those whose
startpoint is this agent, plus undirected ones when `undirected` is set. -/
def outbound (w : World) (a : Nat) (kind : Option String) (undirected : Bool) : List Nat :=
  let edges := match kind with
    | none => heldEdges w a
    | some k =>
      match emLookup (w.agentObjs a).edges k with
      | none => []
      | some l => l
  edges.filter fun e => (w.edgeObjs e).startpoint == some a || (undirected && !(w.edgeObjs e).directed)

/-- Shallow embedding of `baseAgent.inbound` (lines 154-162): as `outbound`
but filtering on the endpoint. -/
def inbound (w : World) (a : Nat) (kind : Option String) (undirected : Bool) : List Nat :=
  let edges := match kind with
    | none => heldEdges w a
    | some k =>
      match emLookup (w.agentObjs a).edges k with
      | none => []
      | some l => l
  edges.filter fun e => (w.edgeObjs e).endpoint == some a || (undirected && !(w.edgeObjs e).directed)

/-- Shallow embedding of `Edge.reassign` (lines 244-248): replace `oldA` by
`newA` in the vertices pair (via `partner(oldagent)`, raising ValueError
for an unconnected agent), remove the edge from the old agent's kind
collection, append it to the new agent's.  The startpoint and endpoint
attributes are not touched. -/
def reassign (w : World) (e oldA newA : Nat) : Except AgentError World :=
  let eo := w.edgeObjs e
  let pn : Except AgentError Nat :=
    if oldA = eo.vertices.1 then .ok eo.vertices.2
    else if oldA = eo.vertices.2 then .ok eo.vertices.1
    else .error .valueError
  match pn with
  | .error err => .error err
  | .ok q =>
    let w1 := { w with edgeObjs := fun j => if j = e then { eo with vertices := (q, newA) } else w.edgeObjs j }
    let w2 := updAgent w1 oldA (fun ag => { ag with edges := emRemove ag.edges eo.kind e })
    let w3 := updAgent w2 newA (fun ag => { ag with edges := emAdd ag.edges eo.kind e })
    .ok w3

/-- Default edge record, used to pad the arena of concrete worlds. -/
def dfltEdge : EdgeObj :=
  { active := false, kind := "", vertices := (0, 0), weight := 0, directed := false,
    startpoint := none, endpoint := none }

/-- Category tag of the non-'agent' parent in the reproduce scenario. -/
def sBuyer : String := "buyer"

/-- Parent of the reproduce scenario: a live 'buyer' with id 9. -/
def c5Parent : AgentObj :=
  { breed := brDflt, primitive := sBuyer, id := 9, age := 0, dead := false,
    goods := [], currentDemand := [], currentShortage := [], edges := [] }

/-- Bystander of the reproduce scenario: a live 'agent' with id 5. -/
def c5Other : AgentObj :=
  { breed := brDflt, primitive := sAgent, id := 5, age := 0, dead := false,
    goods := [], currentDemand := [], currentShortage := [], edges := [] }

/-- World of the reproduce scenario: one live buyer (arena 0, id 9), one
live agent (arena 1, id 5), no edges, live counts 1 and 1. -/
def c5World : World :=
  { agentObjs := fun i => if i = 0 then c5Parent else if i = 1 then c5Other else dfltAgent,
    nAgents := 2,
    edgeObjs := fun _ => dfltEdge,
    nEdges := 0,
    registry := fun k => if k = sBuyer then [0] else if k = sAgent then [1] else [],
    params := fun k => if k = paramAgents ++ sBuyer then 1
      else if k = paramAgents ++ sAgent then 1 else 0,
    goodsCfg := [] }

/-- Claim C5 evaluated at a failing input: with a parent of category
'buyer' (id 9, the only live buyer) and one live 'agent' (id 5), the
hardcoded scan of the 'agent' registry on line 102 allocates the child id
5 + 1 = 6 instead of 9 + 1 = 10 required by the claim's per-category rule;
the other conjuncts of the claim hold at this input: the child (arena index
2) is appended to the parent's 'buyer' registry, the buyer live-count
parameter is incremented by 1, and exactly one lineage edge, directed from
parent to child, links the two. -/
theorem reproduce_id_scan_eval :
    ((reproduce c5World 0).1.agentObjs (reproduce c5World 0).2).id = 6 ∧
      (6 : Int) ≠ 9 + 1 ∧
      (reproduce c5World 0).1.registry sBuyer = [0, 2] ∧
      (reproduce c5World 0).1.params (paramAgents ++ sBuyer)
        = c5World.params (paramAgents ++ sBuyer) + 1 ∧
      kindList (reproduce c5World 0).1 0 sLineage = [0] ∧
      kindList (reproduce c5World 0).1 2 sLineage = [0] ∧
      ((reproduce c5World 0).1.edgeObjs 0).directed = true ∧
      ((reproduce c5World 0).1.edgeObjs 0).startpoint = some 0 ∧
      ((reproduce c5World 0).1.edgeObjs 0).endpoint = some 2 := by
  refine ⟨?_, by norm_num, ?_, ?_, ?_, ?_, ?_, ?_, ?_⟩ <;>
    norm_num +decide [reproduce, agentInit, edgeInit, edgeDirSpec, updAgent, emAdd, emLookup,
      kindList, c5World, c5Parent, c5Other, dfltAgent, dfltEdge, sBuyer, sAgent, sLineage,
      paramAgents, brDflt]

/-- Claim C10: `reassign` on a directed edge updates only the vertices pair
and the two agents' kind collections.  The startpoint/endpoint fields (and
kind, weight, directedness, activity) are unchanged — so after reassigning
away the source or target they still reference the replaced agent — every
other agent and edge is untouched, as are the registry, parameter store and
arena sizes; and because the stored startpoint/endpoint differ from the new
agent, outbound/inbound filtering at the new agent never classifies the
edge as its source or target, for every kind argument and undirected
flag. -/
theorem reassign_frame (w : World) (e oldA newA sA tA : Nat) (w' : World)
    (hdir : (w.edgeObjs e).directed = true)
    (hsp : (w.edgeObjs e).startpoint = some sA)
    (hep : (w.edgeObjs e).endpoint = some tA)
    (hns : newA ≠ sA) (hnt : newA ≠ tA)
    (hok : reassign w e oldA newA = .ok w') :
    (w'.edgeObjs e
        = { w.edgeObjs e with vertices :=
            (if oldA = (w.edgeObjs e).vertices.1 then (w.edgeObjs e).vertices.2
              else (w.edgeObjs e).vertices.1, newA) }) ∧
      (∀ e2, e2 ≠ e → w'.edgeObjs e2 = w.edgeObjs e2) ∧
      (∀ b, b ≠ oldA → b ≠ newA → w'.agentObjs b = w.agentObjs b) ∧
      (oldA ≠ newA →
        (w'.agentObjs oldA).edges = emRemove (w.agentObjs oldA).edges (w.edgeObjs e).kind e ∧
        (w'.agentObjs newA).edges = emAdd (w.agentObjs newA).edges (w.edgeObjs e).kind e) ∧
      w'.registry = w.registry ∧ w'.params = w.params ∧
      w'.nAgents = w.nAgents ∧ w'.nEdges = w.nEdges ∧
      (∀ (k : Option String) (u : Bool), e ∉ outbound w' newA k u ∧ e ∉ inbound w' newA k u) := by
  unfold reassign at hok
  simp only [] at hok
  have hvert : oldA = (w.edgeObjs e).vertices.1 ∨
      (oldA ≠ (w.edgeObjs e).vertices.1 ∧ oldA = (w.edgeObjs e).vertices.2) := by
    by_cases h1 : oldA = (w.edgeObjs e).vertices.1
    · exact Or.inl h1
    · by_cases h2 : oldA = (w.edgeObjs e).vertices.2
      · exact Or.inr ⟨h1, h2⟩
      · rw [if_neg h1, if_neg h2] at hok
        exact absurd hok (by simp)
  have hw' : w' = updAgent (updAgent
      ({ w with edgeObjs := fun j => if j = e then { w.edgeObjs e with vertices :=
          (if oldA = (w.edgeObjs e).vertices.1 then (w.edgeObjs e).vertices.2
            else (w.edgeObjs e).vertices.1, newA) } else w.edgeObjs j })
        oldA (fun ag => { ag with edges := emRemove ag.edges (w.edgeObjs e).kind e }))
      newA (fun ag => { ag with edges := emAdd ag.edges (w.edgeObjs e).kind e }) := by
    rcases hvert with h1 | ⟨h1, h2⟩
    · rw [if_pos h1] at hok
      simp only [Except.ok.injEq] at hok
      rw [← hok, if_pos h1]
    · rw [if_neg h1, if_pos h2] at hok
      simp only [Except.ok.injEq] at hok
      rw [← hok, if_neg h1]
  subst hw'
  have hedge : ((updAgent (updAgent
      ({ w with edgeObjs := fun j => if j = e then { w.edgeObjs e with vertices :=
          (if oldA = (w.edgeObjs e).vertices.1 then (w.edgeObjs e).vertices.2
            else (w.edgeObjs e).vertices.1, newA) } else w.edgeObjs j })
        oldA (fun ag => { ag with edges := emRemove ag.edges (w.edgeObjs e).kind e }))
      newA (fun ag => { ag with edges := emAdd ag.edges (w.edgeObjs e).kind e })).edgeObjs e)
      = { w.edgeObjs e with vertices :=
          (if oldA = (w.edgeObjs e).vertices.1 then (w.edgeObjs e).vertices.2
            else (w.edgeObjs e).vertices.1, newA) } := by
    simp [updAgent]
  refine ⟨hedge, ?_, ?_, ?_, rfl, rfl, rfl, rfl, ?_⟩
  · intro e2 hne
    simp [updAgent, hne]
  · intro b hbo hbn
    simp [updAgent, hbo, hbn]
  · intro hon
    constructor
    · simp [updAgent, hon, Ne.symm hon]
    · simp [updAgent, Ne.symm hon]
  · intro k u
    have hpred : (((updAgent (updAgent
        ({ w with edgeObjs := fun j => if j = e then { w.edgeObjs e with vertices :=
            (if oldA = (w.edgeObjs e).vertices.1 then (w.edgeObjs e).vertices.2
              else (w.edgeObjs e).vertices.1, newA) } else w.edgeObjs j })
          oldA (fun ag => { ag with edges := emRemove ag.edges (w.edgeObjs e).kind e }))
        newA (fun ag => { ag with edges := emAdd ag.edges (w.edgeObjs e).kind e })).edgeObjs
          e).startpoint == some newA) = false ∧
        (((updAgent (updAgent
        ({ w with edgeObjs := fun j => if j = e then { w.edgeObjs e with vertices :=
            (if oldA = (w.edgeObjs e).vertices.1 then (w.edgeObjs e).vertices.2
              else (w.edgeObjs e).vertices.1, newA) } else w.edgeObjs j })
          oldA (fun ag => { ag with edges := emRemove ag.edges (w.edgeObjs e).kind e }))
        newA (fun ag => { ag with edges := emAdd ag.edges (w.edgeObjs e).kind e })).edgeObjs
          e).endpoint == some newA) = false ∧
        ((updAgent (updAgent
        ({ w with edgeObjs := fun j => if j = e then { w.edgeObjs e with vertices :=
            (if oldA = (w.edgeObjs e).vertices.1 then (w.edgeObjs e).vertices.2
              else (w.edgeObjs e).vertices.1, newA) } else w.edgeObjs j })
          oldA (fun ag => { ag with edges := emRemove ag.edges (w.edgeObjs e).kind e }))
        newA (fun ag => { ag with edges := emAdd ag.edges (w.edgeObjs e).kind e })).edgeObjs
          e).directed = true := by
      rw [hedge]
      refine ⟨?_, ?_, hdir⟩
      · simp only []
        rw [hsp]
        simp [Ne.symm hns]
      · simp only []
        rw [hep]
        simp [Ne.symm hnt]
    obtain ⟨hp1, hp2, hp3⟩ := hpred
    constructor
    · intro hmem
      unfold outbound at hmem
      rw [List.mem_filter] at hmem
      rw [hp1, hp3] at hmem
      simp at hmem
    · intro hmem
      unfold inbound at hmem
      rw [List.mem_filter] at hmem
      rw [hp2, hp3] at hmem
      simp at hmem

/-- Kind tag of the default edge kind argument (line 141). -/
def sEdgeKind : String := "edge"

/-- Directed edge of the reassign scenario: 0 → 1 under the default kind. -/
def c10Edge : EdgeObj :=
  { active := true, kind := sEdgeKind, vertices := (0, 1), weight := 1, directed := true,
    startpoint := some 0, endpoint := some 1 }

/-- Agent of the reassign scenario holding edge 0 (arena indices 0 and 1). -/
def c10Agent (idv : Int) : AgentObj :=
  { breed := brDflt, primitive := brDflt, id := idv, age := 0, dead := false,
    goods := [], currentDemand := [], currentShortage := [], edges := [(sEdgeKind, [0])] }

/-- Third agent of the reassign scenario, with no edges. -/
def c10Fresh : AgentObj :=
  { breed := brDflt, primitive := brDflt, id := 2, age := 0, dead := false,
    goods := [], currentDemand := [], currentShortage := [], edges := [] }

/-- World of the reassign scenario: a directed edge 0 → 1 and a fresh
agent 2. -/
def c10World : World :=
  { agentObjs := fun i => if i = 0 then c10Agent 0 else if i = 1 then c10Agent 1 else c10Fresh,
    nAgents := 3, edgeObjs := fun _ => c10Edge, nEdges := 1,
    registry := fun _ => [], params := fun _ => 0, goodsCfg := [] }

/-- Result projection for reassign: the resulting world, defaulted. -/
def exWorldOf (res : Except AgentError World) (w0 : World) : World :=
  res.toOption.getD w0

theorem emAll_cons (pr : String × List Nat) (t : EdgeMap) :
    emAll (pr :: t) = pr.2 ++ emAll t := by
  simp [emAll]

theorem emRemove_cons (pr : String × List Nat) (t : EdgeMap) (k : String) (e : Nat) :
    emRemove (pr :: t) k e
      = (if pr.1 == k then (pr.1, pr.2.erase e) else pr) :: emRemove t k e := rfl

theorem emRemove_keys (em : EdgeMap) (k : String) (e : Nat) :
    (emRemove em k e).map Prod.fst = em.map Prod.fst := by
  unfold emRemove
  rw [List.map_map]
  apply List.map_congr_left
  intro pr _
  by_cases h : (pr.1 == k) = true <;> simp [Function.comp, h]

theorem emRemove_eq_self (em : EdgeMap) (k0 : String) (e : Nat)
    (h : ∀ pr ∈ em, pr.1 ≠ k0) : emRemove em k0 e = em := by
  unfold emRemove
  have hcong : ∀ pr ∈ em, (if (pr.1 == k0) = true then (pr.1, pr.2.erase e) else pr) = pr := by
    intro pr hpr
    rw [if_neg]
    intro hb
    exact h pr hpr (beq_iff_eq.mp hb)
  rw [List.map_congr_left hcong]
  simp

theorem emAll_emRemove (em : EdgeMap) (k0 : String) (e : Nat) (rest : List Nat)
    (hkeys : (em.map Prod.fst).Nodup)
    (hkind : ∀ pr ∈ em, e ∈ pr.2 → pr.1 = k0)
    (hall : emAll em = e :: rest) :
    emAll (emRemove em k0 e) = rest := by
  induction em generalizing rest with
  | nil => simp [emAll] at hall
  | cons hd t ih =>
    rw [List.map_cons, List.nodup_cons] at hkeys
    cases hl : hd.2 with
    | nil =>
      rw [emAll_cons, hl, List.nil_append] at hall
      have hres := ih rest hkeys.2 (fun pr hpr => hkind pr (List.mem_cons_of_mem hd hpr)) hall
      rw [emRemove_cons, emAll_cons]
      have hhead : (if (hd.1 == k0) = true then (hd.1, hd.2.erase e) else hd).2 = ([] : List Nat) := by
        by_cases hb : (hd.1 == k0) = true <;> simp [hb, hl]
      rw [hhead, List.nil_append]
      exact hres
    | cons x l2 =>
      rw [emAll_cons, hl, List.cons_append, List.cons.injEq] at hall
      obtain ⟨hx, hrest⟩ := hall
      subst hx
      have hk0 : hd.1 = k0 :=
        hkind hd (List.mem_cons_self hd t) (by rw [hl]; exact List.mem_cons_self x l2)
      have hnot : ∀ pr ∈ t, pr.1 ≠ k0 := by
        intro pr hpr hpk
        exact hkeys.1 (by rw [← hk0] at hpk; rw [← hpk]; exact List.mem_map_of_mem Prod.fst hpr)
      rw [emRemove_cons, emRemove_eq_self t k0 _ hnot, emAll_cons,
        if_pos (beq_iff_eq.mpr hk0)]
      simp only [hl, List.erase_cons_head]
      exact hrest

theorem mem_emAdd (em : EdgeMap) (k : String) (e : Nat) :
    e ∈ (emLookup (emAdd em k e) k).getD [] := by
  unfold emAdd emLookup
  by_cases hf : (em.find? fun p : String × List Nat => p.1 == k).isSome
  · rw [if_pos hf, List.find?_map]
    have hpred : ((fun p : String × List Nat => p.1 == k) ∘ fun p : String × List Nat =>
        if p.1 == k then (p.1, p.2 ++ [e]) else p) = fun p : String × List Nat => p.1 == k := by
      funext q
      by_cases h : (q.1 == k) = true <;> simp [Function.comp, h]
    rw [hpred]
    obtain ⟨pr, hpr⟩ := Option.isSome_iff_exists.mp hf
    rw [hpr]
    have hp := List.find?_some hpr
    have hpe : pr.1 = k := beq_iff_eq.mp hp
    simp [hp, hpe]
  · rw [if_neg hf, List.find?_append]
    rw [Option.not_isSome_iff_eq_none] at hf
    rw [hf]
    simp

theorem emLookup_emRemove (em : EdgeMap) (k0 : String) (e : Nat) (k : String) :
    emLookup (emRemove em k0 e) k
      = (emLookup em k).map fun l => if k = k0 then l.erase e else l := by
  unfold emLookup emRemove
  rw [List.find?_map]
  have hpred : ((fun p : String × List Nat => p.1 == k) ∘ fun p : String × List Nat =>
      if p.1 == k0 then (p.1, p.2.erase e) else p) = fun p : String × List Nat => p.1 == k := by
    funext q
    by_cases h : (q.1 == k0) = true <;> simp [Function.comp, h]
  rw [hpred]
  cases hf : em.find? (fun p : String × List Nat => p.1 == k) with
  | none => rfl
  | some pr =>
    have hp0 := List.find?_some hf
    have hp : pr.1 = k := beq_iff_eq.mp hp0
    simp only [Option.map_some']
    by_cases hk : k = k0
    · rw [if_pos hk]
      have hb : (pr.1 == k0) = true := beq_iff_eq.mpr (by rw [hp, hk])
      simp [hb]
    · rw [if_neg hk]
      have hb : ¬ ((pr.1 == k0) = true) := by
        rw [beq_iff_eq, hp]
        exact hk
      simp [hb]

theorem not_mem_getD_emRemove (em : EdgeMap) (k0 : String) (e' : Nat) (k : String) (e : Nat)
    (h : e ∉ (emLookup em k).getD []) : e ∉ (emLookup (emRemove em k0 e') k).getD [] := by
  rw [emLookup_emRemove]
  cases hf : emLookup em k with
  | none => simp
  | some l =>
    rw [hf] at h
    simp only [Option.getD_some] at h
    simp only [Option.map_some', Option.getD_some]
    by_cases hk : k = k0
    · rw [if_pos hk]
      intro hmem
      exact h (List.mem_of_mem_erase hmem)
    · rw [if_neg hk]
      exact h

theorem count_getD_emRemove_le (em : EdgeMap) (k0 : String) (e' : Nat) (k : String) (e : Nat) :
    List.count e ((emLookup (emRemove em k0 e') k).getD [])
      ≤ List.count e ((emLookup em k).getD []) := by
  rw [emLookup_emRemove]
  cases hf : emLookup em k with
  | none => simp
  | some l =>
    simp only [Option.map_some', Option.getD_some]
    by_cases hk : k = k0
    · rw [if_pos hk]
      exact (List.erase_sublist e' l).count_le e
    · rw [if_neg hk]

theorem mem_kindList_mem_emAll (em : EdgeMap) (k : String) (x : Nat)
    (h : x ∈ (emLookup em k).getD []) : x ∈ emAll em := by
  unfold emLookup at h
  cases hf : em.find? (fun p : String × List Nat => p.1 == k) with
  | none => rw [hf] at h; simp at h
  | some pr =>
    rw [hf] at h
    simp only [Option.map_some', Option.getD_some] at h
    have hmem := List.mem_of_find?_eq_some hf
    unfold emAll
    rw [List.mem_flatten]
    exact ⟨pr.2, List.mem_map_of_mem Prod.snd hmem, h⟩

theorem cut_agent_edges (w : World) (e' b : Nat) :
    ((cut w e').agentObjs b).edges
      = (if b = (w.edgeObjs e').vertices.2
          then emRemove (if b = (w.edgeObjs e').vertices.1
            then emRemove (w.agentObjs b).edges (w.edgeObjs e').kind e'
            else (w.agentObjs b).edges) (w.edgeObjs e').kind e'
          else if b = (w.edgeObjs e').vertices.1
            then emRemove (w.agentObjs b).edges (w.edgeObjs e').kind e'
            else (w.agentObjs b).edges) := by
  unfold cut updAgent
  by_cases h2 : b = (w.edgeObjs e').vertices.2 <;>
    by_cases h1 : b = (w.edgeObjs e').vertices.1 <;>
      simp [h1, h2] <;> split_ifs <;> rfl

theorem cut_edge_static (w : World) (x y : Nat) :
    ((cut w x).edgeObjs y).kind = (w.edgeObjs y).kind ∧
      ((cut w x).edgeObjs y).vertices = (w.edgeObjs y).vertices := by
  unfold cut updAgent
  by_cases h : y = x <;> simp [h]

theorem cut_edgeObjs_ne (w : World) (x y : Nat) (h : y ≠ x) :
    (cut w x).edgeObjs y = w.edgeObjs y := by
  unfold cut updAgent
  simp [h]

theorem cut_active (w : World) (e : Nat) : ((cut w e).edgeObjs e).active = false := by
  unfold cut updAgent
  simp

theorem cut_frame (w : World) (e : Nat) :
    (cut w e).registry = w.registry ∧ (cut w e).params = w.params ∧
      (cut w e).nAgents = w.nAgents ∧ (cut w e).nEdges = w.nEdges :=
  ⟨rfl, rfl, rfl, rfl⟩

theorem not_mem_kindList_cut (w : World) (e' b : Nat) (k : String) (e : Nat)
    (h : e ∉ kindList w b k) : e ∉ kindList (cut w e') b k := by
  unfold kindList at h ⊢
  rw [cut_agent_edges]
  split_ifs with h2 h1 h1
  · exact not_mem_getD_emRemove _ _ _ _ _ (not_mem_getD_emRemove _ _ _ _ _ h)
  · exact not_mem_getD_emRemove _ _ _ _ _ h
  · exact not_mem_getD_emRemove _ _ _ _ _ h
  · exact h

theorem count_kindList_cut_le (w : World) (e' b : Nat) (k : String) (e : Nat) :
    List.count e (kindList (cut w e') b k) ≤ List.count e (kindList w b k) := by
  unfold kindList
  rw [cut_agent_edges]
  split_ifs with h2 h1 h1
  · exact le_trans (count_getD_emRemove_le _ _ _ _ _) (count_getD_emRemove_le _ _ _ _ _)
  · exact count_getD_emRemove_le _ _ _ _ _
  · exact count_getD_emRemove_le _ _ _ _ _
  · exact le_rfl

theorem foldl_cut_frame (l : List Nat) : ∀ w : World,
    (l.foldl cut w).registry = w.registry ∧ (l.foldl cut w).params = w.params := by
  induction l with
  | nil => exact fun w => ⟨rfl, rfl⟩
  | cons x t ih =>
    intro w
    rw [List.foldl_cons]
    exact ⟨(ih (cut w x)).1.trans (cut_frame w x).1, (ih (cut w x)).2.trans (cut_frame w x).2.1⟩

theorem foldl_cut_edge_static (l : List Nat) : ∀ (w : World) (y : Nat),
    ((l.foldl cut w).edgeObjs y).kind = (w.edgeObjs y).kind ∧
      ((l.foldl cut w).edgeObjs y).vertices = (w.edgeObjs y).vertices := by
  induction l with
  | nil => exact fun w y => ⟨rfl, rfl⟩
  | cons x t ih =>
    intro w y
    rw [List.foldl_cons]
    exact ⟨(ih (cut w x) y).1.trans (cut_edge_static w x y).1,
      (ih (cut w x) y).2.trans (cut_edge_static w x y).2⟩

theorem foldl_cut_edgeObjs_ne (l : List Nat) : ∀ (w : World) (y : Nat), y ∉ l →
    (l.foldl cut w).edgeObjs y = w.edgeObjs y := by
  induction l with
  | nil => exact fun w y _ => rfl
  | cons x t ih =>
    intro w y hy
    rw [List.mem_cons, not_or] at hy
    rw [List.foldl_cons]
    exact (ih (cut w x) y hy.2).trans (cut_edgeObjs_ne w x y hy.1)

theorem foldl_not_mem_kindList (l : List Nat) : ∀ (w : World) (b : Nat) (k : String) (e : Nat),
    e ∉ kindList w b k → e ∉ kindList (l.foldl cut w) b k := by
  induction l with
  | nil => exact fun w b k e h => h
  | cons x t ih =>
    intro w b k e h
    rw [List.foldl_cons]
    exact ih (cut w x) b k e (not_mem_kindList_cut w x b k e h)

/-- The other endpoint of an edge relative to agent `a` (`Edge.partner`,
lines 239-242, for an agent connected to the edge). -/
def edgePartnerOf (w : World) (e a : Nat) : Nat :=
  if (w.edgeObjs e).vertices.1 = a then (w.edgeObjs e).vertices.2 else (w.edgeObjs e).vertices.1

theorem heldEdges_cut_head (w : World) (a e : Nat) (rest : List Nat)
    (hall : heldEdges w a = e :: rest)
    (hkeys : ((w.agentObjs a).edges.map Prod.fst).Nodup)
    (hkind : ∀ pr ∈ (w.agentObjs a).edges, e ∈ pr.2 → pr.1 = (w.edgeObjs e).kind)
    (hmem : (w.edgeObjs e).vertices.1 = a ∨ (w.edgeObjs e).vertices.2 = a)
    (hne : (w.edgeObjs e).vertices.1 ≠ (w.edgeObjs e).vertices.2) :
    heldEdges (cut w e) a = rest := by
  unfold heldEdges at hall ⊢
  rw [cut_agent_edges]
  rcases hmem with h1 | h2
  · rw [if_neg (fun hh => hne (by rw [h1, ← hh])), if_pos h1.symm]
    exact emAll_emRemove _ _ _ _ hkeys hkind hall
  · rw [if_pos h2.symm]
    rw [if_neg (fun hh => hne (by rw [← hh, h2]))]
    exact emAll_emRemove _ _ _ _ hkeys hkind hall

theorem emRemove_entry_sub (em : EdgeMap) (k0 : String) (e : Nat) (pr : String × List Nat)
    (hpr : pr ∈ emRemove em k0 e) :
    ∃ pr0 ∈ em, pr.1 = pr0.1 ∧ ∀ x ∈ pr.2, x ∈ pr0.2 := by
  unfold emRemove at hpr
  obtain ⟨pr0, hpr0, heq⟩ := List.mem_map.mp hpr
  refine ⟨pr0, hpr0, ?_, ?_⟩
  · rw [← heq]
    by_cases h : (pr0.1 == k0) = true <;> simp [h]
  · intro x hx
    rw [← heq] at hx
    by_cases h : (pr0.1 == k0) = true
    · rw [if_pos h] at hx
      exact List.mem_of_mem_erase hx
    · rw [if_neg h] at hx
      exact hx

theorem hkind_emRemove (em : EdgeMap) (k0 : String) (e : Nat) (K : Nat → String)
    (h : ∀ pr ∈ em, ∀ x ∈ pr.2, K x = pr.1) :
    ∀ pr ∈ emRemove em k0 e, ∀ x ∈ pr.2, K x = pr.1 := by
  intro pr hpr x hx
  obtain ⟨pr0, hpr0, hk, hsub⟩ := emRemove_entry_sub em k0 e pr hpr
  rw [hk]
  exact h pr0 hpr0 x (hsub x hx)

theorem not_mem_kindList_cut_partner (w : World) (e a : Nat)
    (hev : (w.edgeObjs e).vertices.1 = a ∨ (w.edgeObjs e).vertices.2 = a)
    (hvne : (w.edgeObjs e).vertices.1 ≠ (w.edgeObjs e).vertices.2)
    (hcnt : List.count e (kindList w (edgePartnerOf w e a) (w.edgeObjs e).kind) ≤ 1) :
    e ∉ kindList (cut w e) (edgePartnerOf w e a) ((w.edgeObjs e).kind) := by
  have key : ∀ em : EdgeMap, List.count e ((emLookup em ((w.edgeObjs e).kind)).getD []) ≤ 1 →
      e ∉ (emLookup (emRemove em ((w.edgeObjs e).kind) e) ((w.edgeObjs e).kind)).getD [] := by
    intro em hc
    rw [emLookup_emRemove]
    cases hf : emLookup em ((w.edgeObjs e).kind) with
    | none => simp
    | some l =>
      rw [hf] at hc
      simp only [Option.getD_some] at hc
      simp only [Option.map_some', Option.getD_some, if_pos]
      intro hmem
      have hp : 0 < List.count e (l.erase e) := List.count_pos_iff.mpr hmem
      rw [List.count_erase_self] at hp
      omega
  have hbv : (edgePartnerOf w e a = (w.edgeObjs e).vertices.2 ∧
        edgePartnerOf w e a ≠ (w.edgeObjs e).vertices.1) ∨
      (edgePartnerOf w e a = (w.edgeObjs e).vertices.1 ∧
        edgePartnerOf w e a ≠ (w.edgeObjs e).vertices.2) := by
    unfold edgePartnerOf
    rcases hev with h | h
    · rw [if_pos h]
      exact Or.inl ⟨rfl, fun hh => hvne hh.symm⟩
    · by_cases h1 : (w.edgeObjs e).vertices.1 = a
      · rw [if_pos h1]
        exact Or.inl ⟨rfl, fun hh => hvne hh.symm⟩
      · rw [if_neg h1]
        exact Or.inr ⟨rfl, fun hh => hvne hh⟩
  unfold kindList at hcnt ⊢
  rw [cut_agent_edges]
  rcases hbv with ⟨h2, h1⟩ | ⟨h1, h2⟩
  · rw [if_pos h2, if_neg h1]
    exact key _ hcnt
  · rw [if_neg h2, if_pos h1]
    exact key _ hcnt

theorem cutAll_spec (a : Nat) (todo : List Nat) : ∀ (w : World),
    heldEdges w a = todo → todo.Nodup →
    ((w.agentObjs a).edges.map Prod.fst).Nodup →
    (∀ pr ∈ (w.agentObjs a).edges, ∀ x ∈ pr.2, (w.edgeObjs x).kind = pr.1) →
    (∀ x ∈ todo,
      ((w.edgeObjs x).vertices.1 = a ∨ (w.edgeObjs x).vertices.2 = a) ∧
      (w.edgeObjs x).vertices.1 ≠ (w.edgeObjs x).vertices.2 ∧
      List.count x (kindList w (edgePartnerOf w x a) (w.edgeObjs x).kind) ≤ 1) →
    heldEdges (todo.foldl cut w) a = [] ∧
    (∀ x ∈ todo, ((todo.foldl cut w).edgeObjs x).active = false ∧
      x ∉ kindList (todo.foldl cut w) (edgePartnerOf w x a) ((w.edgeObjs x).kind)) := by
  induction todo with
  | nil =>
    intro w h1 _ _ _ _
    exact ⟨h1, by simp⟩
  | cons e rest ih =>
    intro w hall hnd hkeys hkind hx
    rw [List.foldl_cons]
    obtain ⟨hev, hvne, hcnt⟩ := hx e (List.mem_cons_self e rest)
    rw [List.nodup_cons] at hnd
    have hstep : heldEdges (cut w e) a = rest :=
      heldEdges_cut_head w a e rest hall hkeys
        (fun pr hpr hepr => (hkind pr hpr e hepr).symm) hev hvne
    have hkeys' : (((cut w e).agentObjs a).edges.map Prod.fst).Nodup := by
      rw [cut_agent_edges]
      split_ifs <;> (try simp only [emRemove_keys]) <;> exact hkeys
    have hkind' : ∀ pr ∈ ((cut w e).agentObjs a).edges, ∀ x ∈ pr.2,
        ((cut w e).edgeObjs x).kind = pr.1 := by
      intro pr hpr x hxmem
      rw [(cut_edge_static w e x).1]
      rw [cut_agent_edges] at hpr
      split_ifs at hpr
      · exact hkind_emRemove _ _ _ _ (hkind_emRemove _ _ _ _ hkind) pr hpr x hxmem
      · exact hkind_emRemove _ _ _ _ hkind pr hpr x hxmem
      · exact hkind_emRemove _ _ _ _ hkind pr hpr x hxmem
      · exact hkind pr hpr x hxmem
    have hx' : ∀ x ∈ rest,
        (((cut w e).edgeObjs x).vertices.1 = a ∨ ((cut w e).edgeObjs x).vertices.2 = a) ∧
        ((cut w e).edgeObjs x).vertices.1 ≠ ((cut w e).edgeObjs x).vertices.2 ∧
        List.count x (kindList (cut w e) (edgePartnerOf (cut w e) x a)
          ((cut w e).edgeObjs x).kind) ≤ 1 := by
      intro x hxr
      obtain ⟨hv, hn, hc⟩ := hx x (List.mem_cons_of_mem e hxr)
      have hst := cut_edge_static w e x
      have hpof : edgePartnerOf (cut w e) x a = edgePartnerOf w x a := by
        unfold edgePartnerOf
        rw [hst.2]
      rw [hst.1, hst.2, hpof]
      exact ⟨hv, hn, le_trans (count_kindList_cut_le w e _ _ x) hc⟩
    obtain ⟨ihheld, ihrest⟩ := ih (cut w e) hstep hnd.2 hkeys' hkind' hx'
    refine ⟨ihheld, ?_⟩
    intro x hxm
    rcases List.mem_cons.mp hxm with hxe | hxr
    · subst hxe
      constructor
      · rw [foldl_cut_edgeObjs_ne rest (cut w x) x hnd.1]
        exact cut_active w x
      · exact foldl_not_mem_kindList rest (cut w x) _ _ x
          (not_mem_kindList_cut_partner w x a hev hvne hcnt)
    · have hst := cut_edge_static w e x
      have hpof : edgePartnerOf (cut w e) x a = edgePartnerOf w x a := by
        unfold edgePartnerOf
        rw [hst.2]
      obtain ⟨hact, hnm⟩ := ihrest x hxr
      refine ⟨hact, ?_⟩
      rw [← hpof, ← hst.1]
      exact hnm

theorem not_mem_emRemove_self (em : EdgeMap) (k0 : String) (e : Nat)
    (hc : List.count e ((emLookup em k0).getD []) ≤ 1) :
    e ∉ (emLookup (emRemove em k0 e) k0).getD [] := by
  rw [emLookup_emRemove]
  cases hf : emLookup em k0 with
  | none => simp
  | some l =>
    rw [hf] at hc
    simp only [Option.getD_some] at hc
    simp only [Option.map_some', Option.getD_some, if_pos]
    intro hmem
    have hp : 0 < List.count e (l.erase e) := List.count_pos_iff.mpr hmem
    rw [List.count_erase_self] at hp
    omega

theorem cut_removes (w : World) (e : Nat)
    (hne : (w.edgeObjs e).vertices.1 ≠ (w.edgeObjs e).vertices.2)
    (hc1 : List.count e (kindList w (w.edgeObjs e).vertices.1 (w.edgeObjs e).kind) ≤ 1)
    (hc2 : List.count e (kindList w (w.edgeObjs e).vertices.2 (w.edgeObjs e).kind) ≤ 1) :
    ((cut w e).edgeObjs e).active = false ∧
      e ∉ kindList (cut w e) (w.edgeObjs e).vertices.1 (w.edgeObjs e).kind ∧
      e ∉ kindList (cut w e) (w.edgeObjs e).vertices.2 (w.edgeObjs e).kind := by
  refine ⟨cut_active w e, ?_, ?_⟩
  · unfold kindList at hc1 ⊢
    rw [cut_agent_edges, if_neg hne, if_pos rfl]
    exact not_mem_emRemove_self _ _ _ hc1
  · unfold kindList at hc2 ⊢
    rw [cut_agent_edges, if_pos rfl, if_neg (Ne.symm hne)]
    exact not_mem_emRemove_self _ _ _ hc2

theorem newEdge_mem (w : World) (a1 a2 : Nat) (kind : String) (dir : Option Direction)
    (weight : ℚ) (w' : World) (eid : Nat) (hne : a1 ≠ a2)
    (hok : newEdge w a1 a2 kind dir weight = .ok (w', eid)) :
    (w'.edgeObjs eid).active = true ∧ eid ∈ kindList w' a1 kind ∧ eid ∈ kindList w' a2 kind := by
  unfold newEdge edgeInit at hok
  cases hb : edgeDirSpec a1 a2 dir with
  | error err =>
    rw [hb] at hok
    exact absurd hok (by simp)
  | ok bse =>
    rw [hb] at hok
    simp only [Except.ok.injEq, Prod.mk.injEq] at hok
    obtain ⟨hw, he⟩ := hok
    subst hw
    subst he
    refine ⟨by simp [updAgent], ?_, ?_⟩
    · have h := mem_emAdd (w.agentObjs a1).edges kind w.nEdges
      unfold kindList
      simpa [updAgent, hne, Ne.symm hne] using h
    · have h := mem_emAdd (w.agentObjs a2).edges kind w.nEdges
      unfold kindList
      simpa [updAgent, hne, Ne.symm hne] using h

/-- Registry and live-count bookkeeping of `die` (lines 135-136). -/
def dieBook (w : World) (a : Nat) : World :=
  { w with
    registry := fun k => if k = (w.agentObjs a).primitive then (w.registry k).erase a
      else w.registry k,
    params := fun k => if k = paramAgents ++ (w.agentObjs a).primitive then w.params k - 1
      else w.params k }

theorem die_eq (w : World) (a : Nat) :
    die w a = updAgent ((heldEdges w a).foldl cut (dieBook w a)) a
      (fun ag => { ag with dead := true }) := rfl

/-- Well-formedness of an agent's edge bookkeeping, as the constructor/cut
discipline of the source maintains it: distinct kind keys, no duplicate
edge references, every listed edge keyed under its own kind, and every
held edge has this agent as one of two distinct vertices and occurs at
most once in its partner's corresponding kind list. -/
@[reducible]
def AgentWF (w : World) (a : Nat) : Prop :=
  ((w.agentObjs a).edges.map Prod.fst).Nodup ∧
  (heldEdges w a).Nodup ∧
  (∀ pr ∈ (w.agentObjs a).edges, ∀ x ∈ pr.2, (w.edgeObjs x).kind = pr.1) ∧
  (∀ x ∈ heldEdges w a,
    ((w.edgeObjs x).vertices.1 = a ∨ (w.edgeObjs x).vertices.2 = a) ∧
    (w.edgeObjs x).vertices.1 ≠ (w.edgeObjs x).vertices.2 ∧
    List.count x (kindList w (edgePartnerOf w x a) (w.edgeObjs x).kind) ≤ 1)

theorem die_spec (w : World) (a : Nat) (hwf : AgentWF w a) :
    ((die w a).agentObjs a).dead = true ∧
      heldEdges (die w a) a = [] ∧
      (∀ e ∈ heldEdges w a,
        ((die w a).edgeObjs e).active = false ∧
        (∀ k, e ∉ kindList (die w a) a k) ∧
        e ∉ kindList (die w a) (edgePartnerOf w e a) ((w.edgeObjs e).kind)) ∧
      (die w a).params (paramAgents ++ (w.agentObjs a).primitive)
        = w.params (paramAgents ++ (w.agentObjs a).primitive) - 1 := by
  obtain ⟨hkeys, hnd, hkind, hx⟩ := hwf
  have hmain := cutAll_spec a (heldEdges w a) (dieBook w a) rfl hnd hkeys hkind hx
  have hklpres : ∀ b k, kindList (die w a) b k
      = kindList ((heldEdges w a).foldl cut (dieBook w a)) b k := by
    intro b k
    rw [die_eq]
    unfold kindList updAgent
    by_cases hb : b = a <;> simp [hb]
  have hedgepres : ∀ y, (die w a).edgeObjs y
      = ((heldEdges w a).foldl cut (dieBook w a)).edgeObjs y := by
    intro y
    rw [die_eq]
    rfl
  refine ⟨?_, ?_, ?_, ?_⟩
  · rw [die_eq]
    simp [updAgent]
  · rw [die_eq]
    unfold heldEdges updAgent
    simpa using hmain.1
  · intro e he
    refine ⟨?_, ?_, ?_⟩
    · rw [hedgepres e]
      exact (hmain.2 e he).1
    · intro k
      rw [hklpres a k]
      intro hmem
      have hheld : e ∈ heldEdges ((heldEdges w a).foldl cut (dieBook w a)) a :=
        mem_kindList_mem_emAll _ k e hmem
      rw [hmain.1] at hheld
      simp at hheld
    · rw [hklpres _ _]
      exact (hmain.2 e he).2
  · rw [die_eq]
    have hfold := (foldl_cut_frame (heldEdges w a) (dieBook w a)).2
    unfold updAgent
    simp only []
    rw [hfold]
    unfold dieBook
    simp

/-- Claim C7 (edge membership across the lifecycle): an edge created by
`newEdge`/the Edge constructor between two distinct agents is active and
present in the per-kind collections of both endpoints; after `cut()` (with
each endpoint's kind collection holding the edge at most once, as the
constructor discipline guarantees) it is inactive and present in neither
endpoint's collection; and `die()` on a well-formed agent cuts every edge
the agent holds — each becomes inactive and disappears from the agent's
and the partner's collections — so the dead agent holds no edge references
and the category's live-count parameter decreases by 1. -/
theorem edge_membership_lifecycle :
    (∀ (w : World) (a1 a2 : Nat) (kind : String) (dir : Option Direction) (weight : ℚ)
      (w' : World) (eid : Nat), a1 ≠ a2 →
      newEdge w a1 a2 kind dir weight = .ok (w', eid) →
      (w'.edgeObjs eid).active = true ∧ eid ∈ kindList w' a1 kind ∧
        eid ∈ kindList w' a2 kind) ∧
    (∀ (w : World) (e : Nat),
      (w.edgeObjs e).vertices.1 ≠ (w.edgeObjs e).vertices.2 →
      List.count e (kindList w (w.edgeObjs e).vertices.1 (w.edgeObjs e).kind) ≤ 1 →
      List.count e (kindList w (w.edgeObjs e).vertices.2 (w.edgeObjs e).kind) ≤ 1 →
      ((cut w e).edgeObjs e).active = false ∧
        e ∉ kindList (cut w e) (w.edgeObjs e).vertices.1 (w.edgeObjs e).kind ∧
        e ∉ kindList (cut w e) (w.edgeObjs e).vertices.2 (w.edgeObjs e).kind) ∧
    (∀ (w : World) (a : Nat), AgentWF w a →
      ((die w a).agentObjs a).dead = true ∧
      heldEdges (die w a) a = [] ∧
      (∀ e ∈ heldEdges w a,
        ((die w a).edgeObjs e).active = false ∧
        (∀ k, e ∉ kindList (die w a) a k) ∧
        e ∉ kindList (die w a) (edgePartnerOf w e a) ((w.edgeObjs e).kind)) ∧
      (die w a).params (paramAgents ++ (w.agentObjs a).primitive)
        = w.params (paramAgents ++ (w.agentObjs a).primitive) - 1) :=
  ⟨fun w a1 a2 kind dir weight w' eid hne hok =>
      newEdge_mem w a1 a2 kind dir weight w' eid hne hok,
    fun w e hne hc1 hc2 => cut_removes w e hne hc1 hc2,
    fun w a hwf => die_spec w a hwf⟩

/-- Fresh agent of the edge-lifecycle scenarios. -/
def mkWAgent : AgentObj :=
  { breed := brDflt, primitive := sAgent, id := 0, age := 0, dead := false,
    goods := [], currentDemand := [], currentShortage := [], edges := [] }

/-- World with two fresh agents and no edges. -/
def cw7 : World :=
  { agentObjs := fun i => if i = 0 then mkWAgent else if i = 1 then mkWAgent else dfltAgent,
    nAgents := 2, edgeObjs := fun _ => dfltEdge, nEdges := 0,
    registry := fun k => if k = sAgent then [0, 1] else [],
    params := fun k => if k = paramAgents ++ sAgent then 2 else 0,
    goodsCfg := [] }

/-- The undirected edge joining agents 0 and 1 in `cw7b`. -/
def cw7bEdge : EdgeObj :=
  { active := true, kind := sEdgeKind, vertices := (0, 1), weight := 1, directed := false,
    startpoint := none, endpoint := none }

/-- Agent of `cw7b`, holding edge 0 under the default kind. -/
def cw7bAgent (idv : Int) : AgentObj :=
  { breed := brDflt, primitive := sAgent, id := idv, age := 0, dead := false,
    goods := [], currentDemand := [], currentShortage := [], edges := [(sEdgeKind, [0])] }

/-- World with two agents joined by one undirected edge. -/
def cw7b : World :=
  { agentObjs := fun i => if i = 0 then cw7bAgent 0 else if i = 1 then cw7bAgent 1 else dfltAgent,
    nAgents := 2, edgeObjs := fun _ => cw7bEdge, nEdges := 1,
    registry := fun k => if k = sAgent then [0, 1] else [],
    params := fun k => if k = paramAgents ++ sAgent then 2 else 0,
    goodsCfg := [] }

/-- Result projection for edge creation: the resulting world, defaulted. -/
def edgeWOf (res : Except AgentError (World × Nat)) (d : World × Nat) : World :=
  (res.toOption.getD d).1

/-- Witness for the edge-lifecycle theorem: a fresh edge between agents 0
and 1 is active and in both collections; cutting the edge of `cw7b`
deactivates it and removes it from both collections; and death of agent 0
in `cw7b` cuts its edge, empties its references and decrements the 'agent'
live count. -/
theorem edge_membership_lifecycle_witness :
    ((edgeWOf (newEdge cw7 0 1 sEdgeKind none 1) (cw7, 0)).edgeObjs 0).active = true ∧
      0 ∈ kindList (edgeWOf (newEdge cw7 0 1 sEdgeKind none 1) (cw7, 0)) 0 sEdgeKind ∧
      0 ∈ kindList (edgeWOf (newEdge cw7 0 1 sEdgeKind none 1) (cw7, 0)) 1 sEdgeKind ∧
      ((cut cw7b 0).edgeObjs 0).active = false ∧
      0 ∉ kindList (cut cw7b 0) 0 sEdgeKind ∧
      0 ∉ kindList (cut cw7b 0) 1 sEdgeKind ∧
      ((die cw7b 0).agentObjs 0).dead = true ∧
      heldEdges (die cw7b 0) 0 = [] ∧
      ((die cw7b 0).edgeObjs 0).active = false ∧
      0 ∉ kindList (die cw7b 0) (edgePartnerOf cw7b 0 0) ((cw7b.edgeObjs 0).kind) ∧
      (die cw7b 0).params (paramAgents ++ (cw7b.agentObjs 0).primitive)
        = cw7b.params (paramAgents ++ (cw7b.agentObjs 0).primitive) - 1 := by
  have hA := edge_membership_lifecycle.1 cw7 0 1 sEdgeKind none 1
    (edgeWOf (newEdge cw7 0 1 sEdgeKind none 1) (cw7, 0)) 0 (by decide) rfl
  have hB := edge_membership_lifecycle.2.1 cw7b 0 (by decide) (by decide) (by decide)
  have hC := edge_membership_lifecycle.2.2 cw7b 0 (by decide)
  exact ⟨hA.1, hA.2.1, hA.2.2, hB.1, hB.2.1, hB.2.2, hC.1, hC.2.1,
    (hC.2.2.1 0 (by decide)).1, (hC.2.2.1 0 (by decide)).2.2, hC.2.2.2⟩

/-- Witness for the reassign frame theorem: reassigning the source of the
directed edge 0 → 1 to the fresh agent 2 leaves the startpoint/endpoint
naming agents 0 and 1, keeps the parameter store untouched, and the edge is
classified neither outbound nor inbound at agent 2. -/
theorem reassign_frame_witness :
    ((exWorldOf (reassign c10World 0 0 2) c10World).edgeObjs 0).startpoint = some 0 ∧
      ((exWorldOf (reassign c10World 0 0 2) c10World).edgeObjs 0).endpoint = some 1 ∧
      0 ∉ outbound (exWorldOf (reassign c10World 0 0 2) c10World) 2 (some sEdgeKind) false ∧
      0 ∉ inbound (exWorldOf (reassign c10World 0 0 2) c10World) 2 (some sEdgeKind) false ∧
      (exWorldOf (reassign c10World 0 0 2) c10World).params = c10World.params := by
  have h := reassign_frame c10World 0 0 2 0 1 (exWorldOf (reassign c10World 0 0 2) c10World)
    rfl rfl rfl (by norm_num) (by norm_num) rfl
  exact ⟨by rw [h.1]; rfl, by rw [h.1]; rfl, (h.2.2.2.2.2.2.2.2 (some sEdgeKind) false).1,
    (h.2.2.2.2.2.2.2.2 (some sEdgeKind) false).2, h.2.2.2.2.2.1⟩

end Helipad
